import Mathlib

/-!
Verification of the personal-finance-kit core logic: the reporting
aggregator (stores/useAppStore.ts, useReportingStore.fetch) and the
provisioning routine (lib/login-check.ts, runLoginCheck), together with
the transfer expansion in the add-transaction flow (app/(tabs)/add.tsx).

Amounts are modelled as rationals; the JavaScript grouping objects are
modelled as insertion-ordered association lists, matching the insertion
order of string keys in JS objects; JS Array.prototype.sort (stable) is
modelled by List.insertionSort with a non-strict descending comparator,
which is stable in the same way.
-/

namespace PFK

/-- Transaction entry types (types/database: INCOME | EXPENSES | ADJUST | CONTRA). -/
inductive EntryType where
  | INCOME
  | EXPENSES
  | ADJUST
  | CONTRA
deriving DecidableEq, Repr

/-- Provenance tags for added_by (MANUAL | AI | 3RDPARTY | API | IMPORT | OTHER | AUTO | TRANSFER). -/
inductive AddedBy where
  | MANUAL
  | AI
  | THIRDPARTY
  | API
  | IMPORT
  | OTHER
  | AUTO
  | TRANSFER
deriving DecidableEq, Repr

/-- Transaction record, with the fields the in-scope logic reads. -/
structure Transaction where
  from_account_id : Option String
  to_account_id : Option String
  category_id : Option String
  amount : Rat
  description : Option String
  transaction_date : String
  entry_type : EntryType
  added_by : AddedBy
  status : String
  attachments : List String
deriving DecidableEq, Repr

/-- Category record, with the fields the in-scope logic reads. -/
structure Category where
  id : String
  user_id : String
  parent_id : Option String
  name : String
  ctype : String
  icon : Option String
  color : String
  opening_balance : Rat
deriving DecidableEq, Repr

/-- JS truthiness of a nullable string: null and the empty string are falsy. -/
def optTruthy : Option String → Bool
  | none => false
  | some s => !(s == "")

/-- Grouping key used by the aggregator: tx.category_id ?? two single quotes (empty string). -/
def categoryKey (tx : Transaction) : String := tx.category_id.getD ""

/-- totalBalance (useAppStore.ts:212-214): reduce over all transactions,
adding amount for INCOME and subtracting it for every other entry type. -/
def totalBalance (txs : List Transaction) : Rat :=
  txs.foldl (fun acc tx => acc + (if tx.entry_type = .INCOME then tx.amount else -tx.amount)) 0

/-- incomeTotal (useAppStore.ts:216-218): sum of amounts of INCOME transactions. -/
def incomeTotal (txs : List Transaction) : Rat :=
  txs.foldl (fun acc tx => acc + (if tx.entry_type = .INCOME then tx.amount else 0)) 0

/-- expenseTotal (useAppStore.ts:219-221): sum of amounts of EXPENSES transactions. -/
def expenseTotal (txs : List Transaction) : Rat :=
  txs.foldl (fun acc tx => acc + (if tx.entry_type = .EXPENSES then tx.amount else 0)) 0

/-- Sum of the amounts of ADJUST and CONTRA transactions (the residual
entry types of the balance identity). -/
def adjustContraTotal (txs : List Transaction) : Rat :=
  ((txs.filter
      (fun tx => tx.entry_type = EntryType.ADJUST ∨ tx.entry_type = EntryType.CONTRA)).map
    (fun tx => tx.amount)).sum

/-- Signed amount of a transaction as used by totalBalance. -/
def signedAmount (tx : Transaction) : Rat :=
  if tx.entry_type = .INCOME then tx.amount else -tx.amount

theorem foldl_add_eq {α : Type} (f : α → Rat) (l : List α) (a : Rat) :
    l.foldl (fun acc x => acc + f x) a = a + (l.map f).sum := by
  induction l generalizing a with
  | nil => simp
  | cons x xs ih => simp [ih, add_assoc]

theorem totalBalance_eq_sum (txs : List Transaction) :
    totalBalance txs = (txs.map signedAmount).sum := by
  simpa [signedAmount] using
    foldl_add_eq (fun tx => if tx.entry_type = EntryType.INCOME then tx.amount else -tx.amount)
      txs 0

theorem incomeTotal_eq_sum (txs : List Transaction) :
    incomeTotal txs =
      (txs.map (fun tx => if tx.entry_type = EntryType.INCOME then tx.amount else 0)).sum := by
  simpa using
    foldl_add_eq (fun tx => if tx.entry_type = EntryType.INCOME then tx.amount else 0) txs 0

theorem expenseTotal_eq_sum (txs : List Transaction) :
    expenseTotal txs =
      (txs.map (fun tx => if tx.entry_type = EntryType.EXPENSES then tx.amount else 0)).sum := by
  simpa using
    foldl_add_eq (fun tx => if tx.entry_type = EntryType.EXPENSES then tx.amount else 0) txs 0

/-- C1: for every transaction list, totalBalance equals incomeTotal minus
expenseTotal minus the total amount of ADJUST and CONTRA transactions:
the aggregator adds amount for INCOME and subtracts it for EXPENSES,
ADJUST and CONTRA alike. -/
theorem C1_totalBalance_identity (txs : List Transaction) :
    totalBalance txs = incomeTotal txs - expenseTotal txs - adjustContraTotal txs := by
  rw [totalBalance_eq_sum, incomeTotal_eq_sum, expenseTotal_eq_sum]
  induction txs with
  | nil => simp [adjustContraTotal]
  | cons t ts ih =>
    rcases ht : t.entry_type with h | h | h | h <;>
      simp [adjustContraTotal, List.filter_cons, ht, signedAmount] at ih ⊢ <;>
      rw [ih] <;> ring

/-- Sample CONTRA transfer used in counterexamples. -/
def contraSample : Transaction :=
  { from_account_id := some "acc-src"
    to_account_id := some "acc-dst"
    category_id := none
    amount := 5
    description := none
    transaction_date := "2024-01-01"
    entry_type := .CONTRA
    added_by := .MANUAL
    status := "COMPLETED"
    attachments := [] }

/-- C5 counterexample: a single CONTRA transaction of amount 5 moves
totalBalance from 0 to -5, so its contribution to totalBalance is -5,
not zero as the claim states. -/
theorem C5_counterexample :
    totalBalance [contraSample] - totalBalance [] = -5 ∧ (-5 : Rat) ≠ 0 := by
  constructor
  · norm_num [totalBalance, contraSample]
    decide
  · norm_num

/-- C5 (amended): a CONTRA transaction subtracts its amount from
totalBalance: appending it changes totalBalance by minus its amount
(it is not treated as already netted to zero). -/
theorem C5_contra_subtracts (txs : List Transaction) (tx : Transaction)
    (h : tx.entry_type = .CONTRA) :
    totalBalance (txs ++ [tx]) = totalBalance txs - tx.amount := by
  rw [totalBalance_eq_sum, totalBalance_eq_sum]
  simp [signedAmount, h]
  ring

/-- C5 amended-claim witness at a concrete input. -/
theorem C5_contra_subtracts_witness :
    totalBalance ([] ++ [contraSample]) = totalBalance [] - contraSample.amount :=
  C5_contra_subtracts [] contraSample rfl

/-- expenseTxs (useAppStore.ts:225): EXPENSES transactions whose category_id
is truthy (non-null and non-empty). -/
def expenseTxs (txs : List Transaction) : List Transaction :=
  txs.filter (fun tx => decide (tx.entry_type = .EXPENSES) && optTruthy tx.category_id)

/-- incomeTxs (useAppStore.ts:250): INCOME transactions whose category_id
is truthy (non-null and non-empty). -/
def incomeTxs (txs : List Transaction) : List Transaction :=
  txs.filter (fun tx => decide (tx.entry_type = .INCOME) && optTruthy tx.category_id)

/-- One step of building the byCategory JS object (useAppStore.ts:227-232):
update the first entry with the given key in place, or append a fresh entry.
The association list keeps JS object key insertion order. -/
def upsertAgg : List (String × Rat × Nat) → String → Rat → List (String × Rat × Nat)
  | [], k, a => [(k, a, 1)]
  | (k', s, n) :: rest, k, a =>
    if k' = k then (k', s + a, n + 1) :: rest else (k', s, n) :: upsertAgg rest k a

/-- Per-category expense/income aggregation: for each grouping key, the
summed amount and the transaction count, in key insertion order. -/
def aggByCategory (txs : List Transaction) : List (String × Rat × Nat) :=
  txs.foldl (fun acc tx => upsertAgg acc (categoryKey tx) tx.amount) []

/-- Derived category spending item (useReportingStore CategorySpendingItem). -/
structure CategorySpendingItem where
  category : Category
  expenseTotal : Rat
  transactionCount : Nat
  percentageShare : Rat
  trendPercentage : Rat
deriving DecidableEq, Repr

/-- Derived category income item (useReportingStore CategoryIncomeItem). -/
structure CategoryIncomeItem where
  category : Category
  incomeTotal : Rat
  transactionCount : Nat
  percentageShare : Rat
  trendPercentage : Rat
deriving DecidableEq, Repr

/-- Map step of categorySpendingSummary (useAppStore.ts:233-245): look the
grouping key up in the category reference list; entries whose key does not
resolve are dropped, the rest carry the percentage share against the given
overall expense total (0 when that total is not positive). -/
def mkSpendingItem (allCategories : List Category) (e : Rat) (g : String × Rat × Nat) :
    Option CategorySpendingItem :=
  match allCategories.find? (fun c => c.id == g.1) with
  | none => none
  | some c =>
    some { category := c, expenseTotal := g.2.1, transactionCount := g.2.2,
           percentageShare := if 0 < e then g.2.1 / e * 100 else 0, trendPercentage := 0 }

/-- Map step of categoryIncomeSummary (useAppStore.ts:258-270). -/
def mkIncomeItem (allCategories : List Category) (e : Rat) (g : String × Rat × Nat) :
    Option CategoryIncomeItem :=
  match allCategories.find? (fun c => c.id == g.1) with
  | none => none
  | some c =>
    some { category := c, incomeTotal := g.2.1, transactionCount := g.2.2,
           percentageShare := if 0 < e then g.2.1 / e * 100 else 0, trendPercentage := 0 }

/-- categorySpendingSummary (useAppStore.ts:225-247): group EXPENSES
transactions with truthy category_id by category id, map the groups through
the category lookup, and stable-sort descending by per-category expense
total (JS sort is stable). -/
def categorySpendingSummary (txs : List Transaction) (allCategories : List Category) :
    List CategorySpendingItem :=
  ((aggByCategory (expenseTxs txs)).filterMap
      (mkSpendingItem allCategories (expenseTotal txs))).insertionSort
    (fun x y => y.expenseTotal ≤ x.expenseTotal)

/-- categoryIncomeSummary (useAppStore.ts:250-272): the symmetric computation
over INCOME transactions against the overall incomeTotal. -/
def categoryIncomeSummary (txs : List Transaction) (allCategories : List Category) :
    List CategoryIncomeItem :=
  ((aggByCategory (incomeTxs txs)).filterMap
      (mkIncomeItem allCategories (incomeTotal txs))).insertionSort
    (fun x y => y.incomeTotal ≤ x.incomeTotal)

/-- One step of building the topCategories count object (useAppStore.ts:167-170). -/
def upsertCount : List (String × Nat) → String → List (String × Nat)
  | [], k => [(k, 1)]
  | (k', n) :: rest, k =>
    if k' = k then (k', n + 1) :: rest else (k', n) :: upsertCount rest k

/-- Reference counts per grouping key over all transactions, in key
insertion order (first occurrence order). -/
def countByCategory (txs : List Transaction) : List (String × Nat) :=
  txs.foldl (fun acc tx => upsertCount acc (categoryKey tx)) []

/-- sortedCategoryIds (useAppStore.ts:171-173): grouping keys stable-sorted
descending by reference count. -/
def sortedCategoryIds (txs : List Transaction) : List String :=
  (((countByCategory txs).insertionSort (fun a b => b.2 ≤ a.2)).map Prod.fst)

/-- topCategories (useAppStore.ts:176-178): resolve each sorted key in the
category reference list, dropping keys that do not resolve. -/
def topCategories (txs : List Transaction) (allCategories : List Category) : List Category :=
  (sortedCategoryIds txs).filterMap fun k => allCategories.find? (fun c => c.id == k)

/-- Number of transactions whose grouping key is the given id. -/
def txCount (txs : List Transaction) (k : String) : Nat :=
  (txs.filter (fun tx => categoryKey tx == k)).length

/-- Index of the first transaction whose grouping key is the given id
(length of the list when there is none). -/
def firstIdx (txs : List Transaction) (k : String) : Nat :=
  txs.findIdx (fun tx => categoryKey tx == k)

/-- Sum of the aggregated amounts of a grouping. -/
def sumVals (g : List (String × Rat × Nat)) : Rat := (g.map fun e => e.2.1).sum

theorem sumVals_upsertAgg (A : List (String × Rat × Nat)) (k : String) (a : Rat) :
    sumVals (upsertAgg A k a) = sumVals A + a := by
  induction A with
  | nil => simp [upsertAgg, sumVals]
  | cons e rest ih =>
    obtain ⟨k', s, n⟩ := e
    by_cases h : k' = k
    · simp [upsertAgg, h, sumVals]
      ring
    · simp [upsertAgg, h, sumVals] at ih ⊢
      rw [ih]
      ring

theorem sumVals_foldl (txs : List Transaction) (A : List (String × Rat × Nat)) :
    sumVals (txs.foldl (fun acc tx => upsertAgg acc (categoryKey tx) tx.amount) A) =
      sumVals A + (txs.map (fun tx => tx.amount)).sum := by
  induction txs generalizing A with
  | nil => simp
  | cons t ts ih =>
    simp only [List.foldl_cons, List.map_cons, List.sum_cons]
    rw [ih, sumVals_upsertAgg]
    ring

theorem sumVals_aggByCategory (txs : List Transaction) :
    sumVals (aggByCategory txs) = (txs.map (fun tx => tx.amount)).sum := by
  simpa [sumVals] using sumVals_foldl txs []

theorem upsertAgg_val_nonneg (A : List (String × Rat × Nat)) (k : String) (a : Rat)
    (hA : ∀ g ∈ A, 0 ≤ g.2.1) (ha : 0 ≤ a) :
    ∀ g ∈ upsertAgg A k a, 0 ≤ g.2.1 := by
  induction A with
  | nil =>
    simp [upsertAgg]
    exact ha
  | cons e rest ih =>
    obtain ⟨k', s, n⟩ := e
    by_cases h : k' = k
    · simp only [upsertAgg, if_pos h]
      intro g hg
      rcases List.mem_cons.mp hg with rfl | hg
      · have hs : 0 ≤ s := hA (k', s, n) (by simp)
        simpa using add_nonneg hs ha
      · exact hA g (List.mem_cons_of_mem _ hg)
    · simp only [upsertAgg, if_neg h]
      intro g hg
      rcases List.mem_cons.mp hg with rfl | hg
      · exact hA (k', s, n) (by simp)
      · exact ih (fun g hg => hA g (List.mem_cons_of_mem _ hg)) g hg

theorem aggByCategory_val_nonneg (txs : List Transaction)
    (h : ∀ tx ∈ txs, 0 ≤ tx.amount) :
    ∀ g ∈ aggByCategory txs, 0 ≤ g.2.1 := by
  suffices H : ∀ (A : List (String × Rat × Nat)), (∀ g ∈ A, 0 ≤ g.2.1) →
      (∀ tx ∈ txs, 0 ≤ tx.amount) →
      ∀ g ∈ txs.foldl (fun acc tx => upsertAgg acc (categoryKey tx) tx.amount) A, 0 ≤ g.2.1 by
    exact H [] (by simp) h
  clear h
  induction txs with
  | nil => intro A hA _ g hg; exact hA g hg
  | cons t ts ih =>
    intro A hA h g hg
    simp only [List.foldl_cons] at hg
    refine ih _ (upsertAgg_val_nonneg A _ _ hA (h t (by simp)))
      (fun tx htx => h tx (List.mem_cons_of_mem _ htx)) g hg

theorem upsertAgg_key_mem (A : List (String × Rat × Nat)) (k : String) (a : Rat) :
    ∀ g ∈ upsertAgg A k a, g.1 ∈ A.map Prod.fst ∨ g.1 = k := by
  induction A with
  | nil => simp [upsertAgg]
  | cons e rest ih =>
    obtain ⟨k', s, n⟩ := e
    by_cases h : k' = k
    · simp only [upsertAgg, if_pos h]
      intro g hg
      rcases List.mem_cons.mp hg with rfl | hg
      · simp
      · exact Or.inl (by simpa using Or.inr (List.mem_map_of_mem Prod.fst hg))
    · simp only [upsertAgg, if_neg h]
      intro g hg
      rcases List.mem_cons.mp hg with rfl | hg
      · simp
      · rcases ih g hg with hm | hk
        · exact Or.inl (by simpa using Or.inr (by simpa using hm))
        · exact Or.inr hk

theorem aggByCategory_key_from_tx (txs : List Transaction) :
    ∀ g ∈ aggByCategory txs, ∃ tx ∈ txs, categoryKey tx = g.1 := by
  suffices H : ∀ (A : List (String × Rat × Nat)),
      ∀ g ∈ txs.foldl (fun acc tx => upsertAgg acc (categoryKey tx) tx.amount) A,
        g.1 ∈ A.map Prod.fst ∨ ∃ tx ∈ txs, categoryKey tx = g.1 by
    intro g hg
    rcases H [] g hg with hm | he
    · simp at hm
    · exact he
  induction txs with
  | nil => intro A g hg; exact Or.inl (List.mem_map_of_mem Prod.fst hg)
  | cons t ts ih =>
    intro A g hg
    simp only [List.foldl_cons] at hg
    rcases ih (upsertAgg A (categoryKey t) t.amount) g hg with hm | he
    · rcases List.mem_map.mp hm with ⟨g', hg', hgeq⟩
      rcases upsertAgg_key_mem A (categoryKey t) t.amount g' hg' with hm' | hk
      · exact Or.inl (hgeq ▸ hm')
      · exact Or.inr ⟨t, by simp, by rw [← hk, hgeq]⟩
    · rcases he with ⟨tx, htx, hke⟩
      exact Or.inr ⟨tx, List.mem_cons_of_mem _ htx, hke⟩

theorem expenseTxs_sum_le (txs : List Transaction)
    (h : ∀ tx ∈ txs, 0 ≤ tx.amount) :
    ((expenseTxs txs).map (fun tx => tx.amount)).sum ≤ expenseTotal txs := by
  rw [expenseTotal_eq_sum]
  induction txs with
  | nil => simp [expenseTxs]
  | cons t ts ih =>
    have h0 : 0 ≤ t.amount := h t (by simp)
    have ih' := ih (fun tx htx => h tx (List.mem_cons_of_mem _ htx))
    by_cases hE : t.entry_type = EntryType.EXPENSES
    · by_cases hT : optTruthy t.category_id = true
      · simp [expenseTxs, List.filter_cons, hE, hT] at ih' ⊢
        linarith
      · simp [expenseTxs, List.filter_cons, hE, hT] at ih' ⊢
        linarith
    · simp [expenseTxs, List.filter_cons, hE] at ih' ⊢
      exact ih'

theorem expenseTxs_sum_eq (txs : List Transaction)
    (h : ∀ tx ∈ txs, tx.entry_type = EntryType.EXPENSES → optTruthy tx.category_id = true) :
    ((expenseTxs txs).map (fun tx => tx.amount)).sum = expenseTotal txs := by
  rw [expenseTotal_eq_sum]
  induction txs with
  | nil => simp [expenseTxs]
  | cons t ts ih =>
    have ih' := ih (fun tx htx => h tx (List.mem_cons_of_mem _ htx))
    by_cases hE : t.entry_type = EntryType.EXPENSES
    · have hT : optTruthy t.category_id = true := h t (by simp) hE
      simp [expenseTxs, List.filter_cons, hE, hT] at ih' ⊢
      linarith
    · simp [expenseTxs, List.filter_cons, hE] at ih' ⊢
      exact ih'

theorem share_sum_filterMap (cats : List Category) (e : Rat)
    (G : List (String × Rat × Nat))
    (hfind : ∀ g ∈ G, (cats.find? (fun c => c.id == g.1)).isSome = true) :
    ((G.filterMap (mkSpendingItem cats e)).map (fun it => it.percentageShare)).sum =
      (G.map (fun g => if 0 < e then g.2.1 / e * 100 else 0)).sum := by
  induction G with
  | nil => simp
  | cons g gs ih =>
    obtain ⟨c, hc⟩ := Option.isSome_iff_exists.mp (hfind g (by simp))
    simp only [List.filterMap_cons, mkSpendingItem, hc, List.map_cons, List.sum_cons]
    rw [ih (fun g hg => hfind g (List.mem_cons_of_mem _ hg))]

theorem mem_categorySpendingSummary {txs : List Transaction} {cats : List Category}
    {it : CategorySpendingItem} (h : it ∈ categorySpendingSummary txs cats) :
    ∃ g ∈ aggByCategory (expenseTxs txs), mkSpendingItem cats (expenseTotal txs) g = some it := by
  unfold categorySpendingSummary at h
  rw [List.mem_insertionSort] at h
  exact List.mem_filterMap.mp h

/-- C2 (amended): with non-negative amounts, every percentage share lies in
the interval from 0 to 100; when expenseTotal is 0 every share is 0; and
when expenseTotal is positive AND every EXPENSES transaction carries a
non-null, non-empty category_id that resolves in the category reference
list, the shares sum to exactly 100. (Without that resolvability condition
the summed shares can fall short of 100, because uncategorised or
unresolvable expenses count in the denominator but produce no summary
entry.) -/
theorem C2_percentage_share (txs : List Transaction) (cats : List Category)
    (hnn : ∀ tx ∈ txs, 0 ≤ tx.amount) :
    (∀ it ∈ categorySpendingSummary txs cats,
        0 ≤ it.percentageShare ∧ it.percentageShare ≤ 100) ∧
    (expenseTotal txs = 0 →
      ∀ it ∈ categorySpendingSummary txs cats, it.percentageShare = 0) ∧
    ((0 < expenseTotal txs ∧
        ∀ tx ∈ txs, tx.entry_type = EntryType.EXPENSES →
          ∃ s, tx.category_id = some s ∧ s ≠ "" ∧ ∃ c ∈ cats, c.id = s) →
      ((categorySpendingSummary txs cats).map (fun it => it.percentageShare)).sum = 100) := by
  have hnnE : ∀ tx ∈ expenseTxs txs, 0 ≤ tx.amount := fun tx htx =>
    hnn tx (List.mem_of_mem_filter htx)
  have hval : ∀ g ∈ aggByCategory (expenseTxs txs), 0 ≤ g.2.1 :=
    aggByCategory_val_nonneg _ hnnE
  have hbound : ∀ g ∈ aggByCategory (expenseTxs txs), g.2.1 ≤ expenseTotal txs := by
    intro g hg
    have h1 : g.2.1 ≤ sumVals (aggByCategory (expenseTxs txs)) := by
      refine List.single_le_sum (fun x hx => ?_) _ (List.mem_map_of_mem (fun e => e.2.1) hg)
      rcases List.mem_map.mp hx with ⟨g', hg', rfl⟩
      exact hval g' hg'
    calc g.2.1 ≤ sumVals (aggByCategory (expenseTxs txs)) := h1
      _ = ((expenseTxs txs).map (fun tx => tx.amount)).sum := sumVals_aggByCategory _
      _ ≤ expenseTotal txs := expenseTxs_sum_le txs hnn
  have hshare : ∀ it ∈ categorySpendingSummary txs cats,
      ∃ g ∈ aggByCategory (expenseTxs txs),
        it.percentageShare =
          (if 0 < expenseTotal txs then g.2.1 / expenseTotal txs * 100 else 0) := by
    intro it hit
    obtain ⟨g, hg, hmk⟩ := mem_categorySpendingSummary hit
    refine ⟨g, hg, ?_⟩
    unfold mkSpendingItem at hmk
    rcases hfind : cats.find? (fun c => c.id == g.1) with _ | c <;> rw [hfind] at hmk
    · simp at hmk
    · simp only [Option.some_inj] at hmk
      rw [← hmk]
  refine ⟨?_, ?_, ?_⟩
  · intro it hit
    obtain ⟨g, hg, hps⟩ := hshare it hit
    rw [hps]
    by_cases hE : 0 < expenseTotal txs
    · rw [if_pos hE]
      constructor
      · have := hval g hg
        positivity
      · rw [div_mul_eq_mul_div, div_le_iff₀ hE]
        have := hbound g hg
        linarith
    · rw [if_neg hE]
      norm_num
  · intro hE0 it hit
    obtain ⟨g, hg, hps⟩ := hshare it hit
    rw [hps, if_neg (by rw [hE0]; exact lt_irrefl 0)]
  · rintro ⟨hE, hres⟩
    have htruthy : ∀ tx ∈ txs, tx.entry_type = EntryType.EXPENSES →
        optTruthy tx.category_id = true := by
      intro tx htx he
      obtain ⟨s, hcid, hs, -⟩ := hres tx htx he
      simp [optTruthy, hcid, hs]
    have hfind : ∀ g ∈ aggByCategory (expenseTxs txs),
        (cats.find? (fun c => c.id == g.1)).isSome = true := by
      intro g hg
      obtain ⟨tx, htx, hkey⟩ := aggByCategory_key_from_tx _ g hg
      obtain ⟨htxs, hpred⟩ := List.mem_filter.mp htx
      have hExp : tx.entry_type = EntryType.EXPENSES := by
        simp only [Bool.and_eq_true, decide_eq_true_eq] at hpred
        exact hpred.1
      obtain ⟨s, hcid, hs, c, hcmem, hcid2⟩ := hres tx htxs hExp
      refine List.find?_isSome.mpr ⟨c, hcmem, ?_⟩
      have : categoryKey tx = s := by simp [categoryKey, hcid]
      simp [hcid2, ← hkey, this]
    have hperm : (categorySpendingSummary txs cats).Perm
        ((aggByCategory (expenseTxs txs)).filterMap
          (mkSpendingItem cats (expenseTotal txs))) :=
      List.perm_insertionSort _ _
    rw [(hperm.map (fun it => it.percentageShare)).sum_eq,
      share_sum_filterMap cats (expenseTotal txs) _ hfind]
    have hmap : (aggByCategory (expenseTxs txs)).map
          (fun g => if 0 < expenseTotal txs then g.2.1 / expenseTotal txs * 100 else 0) =
        (aggByCategory (expenseTxs txs)).map
          (fun g => g.2.1 * ((expenseTotal txs)⁻¹ * 100)) := by
      refine List.map_congr_left fun g _ => ?_
      rw [if_pos hE, div_eq_mul_inv, mul_assoc]
    rw [hmap, List.sum_map_mul_right]
    have hsv : (List.map (fun g : String × Rat × Nat => g.2.1)
          (aggByCategory (expenseTxs txs))).sum = expenseTotal txs := by
      have h1 : sumVals (aggByCategory (expenseTxs txs)) =
          ((expenseTxs txs).map (fun tx => tx.amount)).sum := sumVals_aggByCategory _
      rw [expenseTxs_sum_eq txs htruthy] at h1
      exact h1
    rw [hsv, ← mul_assoc, mul_inv_cancel₀ (ne_of_gt hE), one_mul]

/-- Expense transaction with a null category, used by the C2 counterexample. -/
def nullCatExpense : Transaction :=
  { from_account_id := some "acc-src"
    to_account_id := none
    category_id := none
    amount := 1
    description := none
    transaction_date := "2024-01-02"
    entry_type := .EXPENSES
    added_by := .MANUAL
    status := "COMPLETED"
    attachments := [] }

/-- C2 counterexample: one EXPENSES transaction with a null category_id
makes expenseTotal positive while categorySpendingSummary stays empty, so
the shares sum to 0, not 100. -/
theorem C2_counterexample :
    0 < expenseTotal [nullCatExpense] ∧
    categorySpendingSummary [nullCatExpense] [] = [] ∧
    ((categorySpendingSummary [nullCatExpense] []).map
        (fun it => it.percentageShare)).sum ≠ 100 := by
  refine ⟨by norm_num [expenseTotal, nullCatExpense], rfl, ?_⟩
  rw [show categorySpendingSummary [nullCatExpense] [] = [] from rfl]
  norm_num

/-- Transactions and categories for the C2 witness. -/
def wFood : Category :=
  { id := "food", user_id := "u1", parent_id := none, name := "Food", ctype := "EXPENSE",
    icon := none, color := "#6b7280", opening_balance := 0 }

/-- Second category for the C2 witness. -/
def wGames : Category :=
  { id := "games", user_id := "u1", parent_id := none, name := "Games", ctype := "EXPENSE",
    icon := none, color := "#3b82f6", opening_balance := 0 }

/-- First witness transaction: 40 spent on food. -/
def wTxFood : Transaction :=
  { from_account_id := some "acc-1", to_account_id := none, category_id := some "food",
    amount := 40, description := none, transaction_date := "2024-02-01",
    entry_type := .EXPENSES, added_by := .MANUAL, status := "COMPLETED", attachments := [] }

/-- Second witness transaction: 60 spent on games. -/
def wTxGames : Transaction :=
  { from_account_id := some "acc-1", to_account_id := none, category_id := some "games",
    amount := 60, description := none, transaction_date := "2024-02-02",
    entry_type := .EXPENSES, added_by := .MANUAL, status := "COMPLETED", attachments := [] }

/-- Category, expense total and transaction count of a spending item (all
fields except the share, which depends on the overall denominator). -/
def spendingData (it : CategorySpendingItem) : Category × Rat × Nat :=
  (it.category, it.expenseTotal, it.transactionCount)

/-- Category, income total and transaction count of an income item. -/
def incomeData (it : CategoryIncomeItem) : Category × Rat × Nat :=
  (it.category, it.incomeTotal, it.transactionCount)

theorem mkSpendingItem_data (cats : List Category) (e1 e2 : Rat) (g : String × Rat × Nat) :
    (mkSpendingItem cats e1 g).map spendingData = (mkSpendingItem cats e2 g).map spendingData := by
  cases hf : cats.find? (fun c => c.id == g.1) <;>
    simp [mkSpendingItem, hf, spendingData]

theorem mkIncomeItem_data (cats : List Category) (e1 e2 : Rat) (g : String × Rat × Nat) :
    (mkIncomeItem cats e1 g).map incomeData = (mkIncomeItem cats e2 g).map incomeData := by
  cases hf : cats.find? (fun c => c.id == g.1) <;>
    simp [mkIncomeItem, hf, incomeData]

theorem spendingSummary_data (txs : List Transaction) (cats : List Category) :
    (categorySpendingSummary txs cats).map spendingData =
      (((aggByCategory (expenseTxs txs)).filterMap
          (fun g => (mkSpendingItem cats (expenseTotal txs) g).map spendingData)).insertionSort
        (fun p q => q.2.1 ≤ p.2.1)) := by
  unfold categorySpendingSummary
  rw [List.map_insertionSort (fun x y : CategorySpendingItem => y.expenseTotal ≤ x.expenseTotal)
    (fun p q : Category × Rat × Nat => q.2.1 ≤ p.2.1) spendingData _
    (fun a _ b _ => Iff.rfl), List.map_filterMap]

theorem incomeSummary_data (txs : List Transaction) (cats : List Category) :
    (categoryIncomeSummary txs cats).map incomeData =
      (((aggByCategory (incomeTxs txs)).filterMap
          (fun g => (mkIncomeItem cats (incomeTotal txs) g).map incomeData)).insertionSort
        (fun p q => q.2.1 ≤ p.2.1)) := by
  unfold categoryIncomeSummary
  rw [List.map_insertionSort (fun x y : CategoryIncomeItem => y.incomeTotal ≤ x.incomeTotal)
    (fun p q : Category × Rat × Nat => q.2.1 ≤ p.2.1) incomeData _
    (fun a _ b _ => Iff.rfl), List.map_filterMap]

/-- C2 witness: the amended claim instantiated on a concrete fully
categorised transaction list. -/
theorem C2_percentage_share_witness :
    (∀ it ∈ categorySpendingSummary [wTxFood, wTxGames] [wFood, wGames],
        0 ≤ it.percentageShare ∧ it.percentageShare ≤ 100) ∧
    (expenseTotal [wTxFood, wTxGames] = 0 →
      ∀ it ∈ categorySpendingSummary [wTxFood, wTxGames] [wFood, wGames],
        it.percentageShare = 0) ∧
    ((0 < expenseTotal [wTxFood, wTxGames] ∧
        ∀ tx ∈ [wTxFood, wTxGames], tx.entry_type = EntryType.EXPENSES →
          ∃ s, tx.category_id = some s ∧ s ≠ "" ∧ ∃ c ∈ [wFood, wGames], c.id = s) →
      ((categorySpendingSummary [wTxFood, wTxGames] [wFood, wGames]).map
          (fun it => it.percentageShare)).sum = 100) :=
  C2_percentage_share [wTxFood, wTxGames] [wFood, wGames] (by
    intro tx htx
    rcases List.mem_cons.mp htx with rfl | htx
    · norm_num [wTxFood]
    · rcases List.mem_cons.mp htx with rfl | htx
      · norm_num [wTxGames]
      · simp at htx)

/-- C9: a transaction with a null category_id is excluded from the filtered
inputs of both per-category summaries, so every summary entry keeps its
category, total and transaction count; yet its amount still flows into
incomeTotal, expenseTotal and totalBalance according to its entry type. -/
theorem C9_null_category (txs1 txs2 : List Transaction) (tx : Transaction)
    (cats : List Category) (h : tx.category_id = none) :
    expenseTxs (txs1 ++ tx :: txs2) = expenseTxs (txs1 ++ txs2) ∧
    incomeTxs (txs1 ++ tx :: txs2) = incomeTxs (txs1 ++ txs2) ∧
    (categorySpendingSummary (txs1 ++ tx :: txs2) cats).map spendingData =
      (categorySpendingSummary (txs1 ++ txs2) cats).map spendingData ∧
    (categoryIncomeSummary (txs1 ++ tx :: txs2) cats).map incomeData =
      (categoryIncomeSummary (txs1 ++ txs2) cats).map incomeData ∧
    incomeTotal (txs1 ++ tx :: txs2) =
      incomeTotal (txs1 ++ txs2) + (if tx.entry_type = EntryType.INCOME then tx.amount else 0) ∧
    expenseTotal (txs1 ++ tx :: txs2) =
      expenseTotal (txs1 ++ txs2) +
        (if tx.entry_type = EntryType.EXPENSES then tx.amount else 0) ∧
    totalBalance (txs1 ++ tx :: txs2) = totalBalance (txs1 ++ txs2) + signedAmount tx := by
  have hE : expenseTxs (txs1 ++ tx :: txs2) = expenseTxs (txs1 ++ txs2) := by
    simp [expenseTxs, List.filter_append, List.filter_cons, h, optTruthy]
  have hI : incomeTxs (txs1 ++ tx :: txs2) = incomeTxs (txs1 ++ txs2) := by
    simp [incomeTxs, List.filter_append, List.filter_cons, h, optTruthy]
  refine ⟨hE, hI, ?_, ?_, ?_, ?_, ?_⟩
  · rw [spendingSummary_data, spendingSummary_data, hE]
    congr 1
    refine List.filterMap_congr fun g _ => ?_
    exact mkSpendingItem_data cats _ _ g
  · rw [incomeSummary_data, incomeSummary_data, hI]
    congr 1
    refine List.filterMap_congr fun g _ => ?_
    exact mkIncomeItem_data cats _ _ g
  · rw [incomeTotal_eq_sum, incomeTotal_eq_sum]
    simp [List.sum_append]
    ring
  · rw [expenseTotal_eq_sum, expenseTotal_eq_sum]
    simp [List.sum_append]
    ring
  · rw [totalBalance_eq_sum, totalBalance_eq_sum]
    simp [List.sum_append, signedAmount]
    ring

/-- C9 witness: concrete instantiation with an uncategorised expense
inserted between two categorised transactions. -/
theorem C9_null_category_witness :
    expenseTxs ([wTxFood] ++ nullCatExpense :: [wTxGames]) =
      expenseTxs ([wTxFood] ++ [wTxGames]) ∧
    incomeTxs ([wTxFood] ++ nullCatExpense :: [wTxGames]) =
      incomeTxs ([wTxFood] ++ [wTxGames]) ∧
    (categorySpendingSummary ([wTxFood] ++ nullCatExpense :: [wTxGames])
        [wFood, wGames]).map spendingData =
      (categorySpendingSummary ([wTxFood] ++ [wTxGames]) [wFood, wGames]).map spendingData ∧
    (categoryIncomeSummary ([wTxFood] ++ nullCatExpense :: [wTxGames])
        [wFood, wGames]).map incomeData =
      (categoryIncomeSummary ([wTxFood] ++ [wTxGames]) [wFood, wGames]).map incomeData ∧
    incomeTotal ([wTxFood] ++ nullCatExpense :: [wTxGames]) =
      incomeTotal ([wTxFood] ++ [wTxGames]) +
        (if nullCatExpense.entry_type = EntryType.INCOME then nullCatExpense.amount else 0) ∧
    expenseTotal ([wTxFood] ++ nullCatExpense :: [wTxGames]) =
      expenseTotal ([wTxFood] ++ [wTxGames]) +
        (if nullCatExpense.entry_type = EntryType.EXPENSES then nullCatExpense.amount else 0) ∧
    totalBalance ([wTxFood] ++ nullCatExpense :: [wTxGames]) =
      totalBalance ([wTxFood] ++ [wTxGames]) + signedAmount nullCatExpense :=
  C9_null_category [wTxFood] [wTxGames] nullCatExpense [wFood, wGames] rfl

/-- Grouping keys of the topCategories count object, in insertion order. -/
def keysOf (txs : List Transaction) : List String := (countByCategory txs).map Prod.fst

/-- Count lookup by key (first matching entry, as JS property access). -/
def lookc (A : List (String × Nat)) (k : String) : Option Nat :=
  (A.find? (fun e => e.1 == k)).map Prod.snd

theorem keys_upsertCount (A : List (String × Nat)) (k : String) :
    (upsertCount A k).map Prod.fst =
      if k ∈ A.map Prod.fst then A.map Prod.fst else A.map Prod.fst ++ [k] := by
  induction A with
  | nil => simp [upsertCount]
  | cons e rest ih =>
    obtain ⟨k', n⟩ := e
    by_cases h : k' = k
    · subst h
      simp [upsertCount]
    · have h' : ¬ k = k' := fun hh => h hh.symm
      by_cases hm : k ∈ rest.map Prod.fst <;>
        simp [upsertCount, h, h', hm] at ih ⊢ <;> exact ih

theorem lookc_upsertCount (A : List (String × Nat)) (k0 k : String) :
    lookc (upsertCount A k0) k =
      if k = k0 then some ((lookc A k).getD 0 + 1) else lookc A k := by
  induction A with
  | nil =>
    by_cases h : k = k0
    · subst h
      simp [upsertCount, lookc]
    · have h' : ¬ (k0 == k) = true := by simpa using Ne.symm h
      simp [upsertCount, lookc, h, h']
  | cons e rest ih =>
    obtain ⟨k', n⟩ := e
    by_cases h1 : k' = k0
    · subst h1
      by_cases h2 : k = k'
      · subst h2
        simp [upsertCount, lookc]
      · have h2' : ¬ (k' == k) = true := by simpa using Ne.symm h2
        simp [upsertCount, lookc, h2, h2']
    · by_cases h2 : k = k'
      · subst h2
        simp [upsertCount, h1, lookc]
      · have h2' : ¬ (k' == k) = true := by simpa using Ne.symm h2
        simp only [upsertCount, if_neg h1]
        simp only [lookc] at ih ⊢
        simp [h2', h2] at ih ⊢
        exact ih

theorem txCount_cons (t : Transaction) (ts : List Transaction) (k : String) :
    txCount (t :: ts) k =
      if categoryKey t = k then txCount ts k + 1 else txCount ts k := by
  by_cases h : categoryKey t = k <;> simp [txCount, List.filter_cons, h]

theorem lookc_foldl (txs : List Transaction) (A : List (String × Nat)) (k : String) :
    lookc (txs.foldl (fun acc tx => upsertCount acc (categoryKey tx)) A) k =
      match lookc A k with
      | some n => some (n + txCount txs k)
      | none => if txCount txs k = 0 then none else some (txCount txs k) := by
  induction txs generalizing A with
  | nil =>
    cases h : lookc A k <;> simp [txCount, h]
  | cons t ts ih =>
    simp only [List.foldl_cons]
    rw [ih, lookc_upsertCount, txCount_cons]
    by_cases hk : categoryKey t = k
    · have hk' : k = categoryKey t := hk.symm
      rw [if_pos hk', if_pos hk]
      cases h : lookc A k <;> simp [h] <;> omega
    · have hk' : ¬ k = categoryKey t := fun hh => hk hh.symm
      rw [if_neg hk', if_neg hk]

theorem mem_lookc {A : List (String × Nat)} (hnd : (A.map Prod.fst).Nodup)
    {k : String} {n : Nat} (h : (k, n) ∈ A) : lookc A k = some n := by
  induction A with
  | nil => simp at h
  | cons e rest ih =>
    obtain ⟨k', n'⟩ := e
    rcases List.mem_cons.mp h with heq | hmem
    · obtain ⟨rfl, rfl⟩ := Prod.mk.injEq .. ▸ heq
      simp [lookc]
    · have hk : k' ≠ k := by
        intro hh
        subst hh
        have : k' ∈ rest.map Prod.fst := List.mem_map_of_mem Prod.fst hmem
        exact (List.nodup_cons.mp (by simpa using hnd)).1 this
      have hk' : ¬ (k' == k) = true := by simpa using hk
      have ihr := ih (List.nodup_cons.mp (by simpa using hnd)).2 hmem
      simp only [lookc] at ihr ⊢
      simp [hk'] at ihr ⊢
      exact ihr

theorem lookc_countByCategory (txs : List Transaction) (k : String) :
    lookc (countByCategory txs) k =
      if txCount txs k = 0 then none else some (txCount txs k) := by
  simpa [countByCategory, lookc] using lookc_foldl txs [] k

theorem countByCategory_count {txs : List Transaction}
    (hnd : ((countByCategory txs).map Prod.fst).Nodup) :
    ∀ e ∈ countByCategory txs, e.2 = txCount txs e.1 := by
  intro e he
  obtain ⟨k, n⟩ := e
  have h1 : lookc (countByCategory txs) k = some n := mem_lookc hnd he
  rw [lookc_countByCategory] at h1
  by_cases h0 : txCount txs k = 0
  · rw [if_pos h0] at h1
    exact absurd h1 (by simp)
  · rw [if_neg h0] at h1
    exact (Option.some_inj.mp h1).symm

theorem firstIdx_lt_length_of_mem {txs : List Transaction} {k : String}
    (h : ∃ tx ∈ txs, categoryKey tx = k) : firstIdx txs k < txs.length := by
  obtain ⟨tx, htx, hkey⟩ := h
  exact List.findIdx_lt_length_of_exists ⟨tx, htx, by simp [hkey]⟩

theorem firstIdx_append_left {txs : List Transaction} {k : String}
    (h : ∃ tx ∈ txs, categoryKey tx = k) (l2 : List Transaction) :
    firstIdx (txs ++ l2) k = firstIdx txs k := by
  unfold firstIdx
  rw [List.findIdx_append]
  exact if_pos (firstIdx_lt_length_of_mem h)

theorem firstIdx_append_right {txs : List Transaction} {k : String}
    (h : ∀ tx ∈ txs, categoryKey tx ≠ k) (l2 : List Transaction) :
    firstIdx (txs ++ l2) k = firstIdx l2 k + txs.length := by
  unfold firstIdx
  rw [List.findIdx_append, if_neg]
  have heq : txs.findIdx (fun tx => categoryKey tx == k) = txs.length :=
    List.findIdx_eq_length.mpr (fun tx htx => by simpa using h tx htx)
  omega

theorem countBy_invariant (txs : List Transaction) :
    (∀ k ∈ keysOf txs, ∃ tx ∈ txs, categoryKey tx = k) ∧
    (∀ tx ∈ txs, categoryKey tx ∈ keysOf txs) ∧
    (keysOf txs).Pairwise (fun k1 k2 => firstIdx txs k1 < firstIdx txs k2) := by
  induction txs using List.reverseRecOn with
  | nil => simp [keysOf, countByCategory]
  | append_singleton ts t ih =>
    obtain ⟨ha, hb, hc⟩ := ih
    have hkeys : keysOf (ts ++ [t]) =
        if categoryKey t ∈ keysOf ts then keysOf ts else keysOf ts ++ [categoryKey t] := by
      simp only [keysOf, countByCategory, List.foldl_append, List.foldl_cons, List.foldl_nil]
      exact keys_upsertCount _ _
    have hfirst : ∀ k ∈ keysOf ts, firstIdx (ts ++ [t]) k = firstIdx ts k := fun k hk =>
      firstIdx_append_left (ha k hk) [t]
    by_cases hmem : categoryKey t ∈ keysOf ts
    · have hk2 : keysOf (ts ++ [t]) = keysOf ts := by rw [hkeys, if_pos hmem]
      refine ⟨?_, ?_, ?_⟩
      · intro k hk
        rw [hk2] at hk
        obtain ⟨tx, htx, hkey⟩ := ha k hk
        exact ⟨tx, List.mem_append_left _ htx, hkey⟩
      · intro tx htx
        rw [hk2]
        rcases List.mem_append.mp htx with h | h
        · exact hb tx h
        · have ht : tx = t := by simpa using h
          subst ht
          exact hmem
      · rw [hk2]
        exact hc.imp_of_mem (fun {k1 k2} h1 h2 hlt => by
          rw [hfirst k1 h1, hfirst k2 h2]; exact hlt)
    · have hk2 : keysOf (ts ++ [t]) = keysOf ts ++ [categoryKey t] := by
        rw [hkeys, if_neg hmem]
      have hnomatch : ∀ tx ∈ ts, categoryKey tx ≠ categoryKey t := fun tx htx heq =>
        hmem (heq ▸ hb tx htx)
      have hlast : firstIdx (ts ++ [t]) (categoryKey t) = ts.length := by
        rw [firstIdx_append_right hnomatch [t]]
        simp [firstIdx, List.findIdx_cons]
      refine ⟨?_, ?_, ?_⟩
      · intro k hk
        rw [hk2] at hk
        rcases List.mem_append.mp hk with h | h
        · obtain ⟨tx, htx, hkey⟩ := ha k h
          exact ⟨tx, List.mem_append_left _ htx, hkey⟩
        · have hkt : k = categoryKey t := by simpa using h
          exact ⟨t, List.mem_append_right _ (by simp), hkt.symm⟩
      · intro tx htx
        rw [hk2]
        rcases List.mem_append.mp htx with h | h
        · exact List.mem_append_left _ (hb tx h)
        · have ht : tx = t := by simpa using h
          subst ht
          exact List.mem_append_right _ (by simp)
      · rw [hk2, List.pairwise_append]
        refine ⟨hc.imp_of_mem (fun {k1 k2} h1 h2 hlt => by
            rw [hfirst k1 h1, hfirst k2 h2]; exact hlt), by simp, ?_⟩
        intro k1 h1 k2 h2
        have hkt : k2 = categoryKey t := by simpa using h2
        rw [hkt, hlast, hfirst k1 h1]
        exact firstIdx_lt_length_of_mem (ha k1 h1)

theorem mem_keysOf {txs : List Transaction} {k : String} :
    k ∈ keysOf txs ↔ ∃ tx ∈ txs, categoryKey tx = k := by
  constructor
  · exact fun h => (countBy_invariant txs).1 k h
  · rintro ⟨tx, htx, hkey⟩
    have h := (countBy_invariant txs).2.1 tx htx
    rwa [hkey] at h

theorem keysOf_nodup (txs : List Transaction) : (keysOf txs).Nodup :=
  ((countBy_invariant txs).2.2).imp (fun hlt heq => absurd (heq ▸ hlt) (lt_irrefl _))

/-- Ordering produced by a stable descending sort on counts: strictly larger
count first, equal counts ordered by the position function. -/
def stRel (pos : String × Nat → Nat) (a b : String × Nat) : Prop :=
  b.2 < a.2 ∨ (b.2 = a.2 ∧ pos a < pos b)

theorem orderedInsert_stable (pos : String × Nat → Nat) (a : String × Nat)
    (l : List (String × Nat)) (hl : l.Pairwise (stRel pos))
    (ha : ∀ y ∈ l, pos a < pos y) :
    (List.orderedInsert (fun x y => y.2 ≤ x.2) a l).Pairwise (stRel pos) := by
  induction l with
  | nil => simp [List.orderedInsert]
  | cons b t ih =>
    rcases List.pairwise_cons.mp hl with ⟨hbt, ht⟩
    by_cases hr : b.2 ≤ a.2
    · simp only [List.orderedInsert]
      rw [if_pos hr]
      refine List.pairwise_cons.mpr ⟨?_, hl⟩
      intro y hy
      rcases List.mem_cons.mp hy with rfl | hyt
      · rcases lt_or_eq_of_le hr with h | h
        · exact Or.inl h
        · exact Or.inr ⟨h, ha y (by simp)⟩
      · have hby := hbt y hyt
        have hyb : y.2 ≤ b.2 := by
          rcases hby with h | h
          · exact le_of_lt h
          · exact le_of_eq h.1
        rcases lt_or_eq_of_le (le_trans hyb hr) with h | h
        · exact Or.inl h
        · exact Or.inr ⟨h, ha y (List.mem_cons_of_mem _ hyt)⟩
    · simp only [List.orderedInsert]
      rw [if_neg hr]
      refine List.pairwise_cons.mpr
        ⟨?_, ih ht (fun y hy => ha y (List.mem_cons_of_mem _ hy))⟩
      intro y hy
      rcases (List.mem_orderedInsert _).mp hy with rfl | hyt
      · exact Or.inl (lt_of_not_le hr)
      · exact hbt y hyt

theorem insertionSort_stable (pos : String × Nat → Nat) (l : List (String × Nat))
    (hl : l.Pairwise (fun a b => pos a < pos b)) :
    (List.insertionSort (fun x y => y.2 ≤ x.2) l).Pairwise (stRel pos) := by
  induction l with
  | nil => simp
  | cons a l ih =>
    rcases List.pairwise_cons.mp hl with ⟨ha, hl'⟩
    simp only [List.insertionSort]
    exact orderedInsert_stable pos a _ (ih hl')
      (fun y hy => ha y ((List.mem_insertionSort _).mp hy))

theorem find?_id_nodup (cats : List Category) (hnd : (cats.map (fun c => c.id)).Nodup)
    (c : Category) (hc : c ∈ cats) : cats.find? (fun x => x.id == c.id) = some c := by
  induction cats with
  | nil => simp at hc
  | cons d rest ih =>
    rcases List.mem_cons.mp hc with rfl | hc
    · exact List.find?_cons_of_pos _ (by simp)
    · rw [List.map_cons] at hnd
      obtain ⟨hd1, hd2⟩ := List.nodup_cons.mp hnd
      have hne : ¬ (d.id == c.id) = true := by
        simp only [beq_iff_eq]
        intro he
        have h1 : c.id ∈ rest.map (fun c => c.id) := List.mem_map_of_mem _ hc
        rw [← he] at h1
        exact hd1 h1
      rw [show List.find? (fun x => x.id == c.id) (d :: rest) =
            List.find? (fun x => x.id == c.id) rest from
          List.find?_cons_of_neg _ hne]
      exact ih hd2 hc

/-- C8 (amended): with distinct category ids in the reference list,
topCategories lists exactly the reference categories whose id is referenced
by at least one transaction (null category ids are keyed as the empty
string), ordered descending by reference count; two categories with equal
counts appear in the order of the FIRST TRANSACTION referencing them — not
in reference-list order — and categories with zero references are dropped
rather than ranked last. -/
theorem C8_topCategories (txs : List Transaction) (cats : List Category)
    (hnd : (cats.map (fun c => c.id)).Nodup) :
    (topCategories txs cats).Pairwise
      (fun c1 c2 =>
        txCount txs c2.id < txCount txs c1.id ∨
          (txCount txs c2.id = txCount txs c1.id ∧
            firstIdx txs c1.id < firstIdx txs c2.id)) ∧
    (∀ c, c ∈ topCategories txs cats ↔
        c ∈ cats ∧ ∃ tx ∈ txs, categoryKey tx = c.id) := by
  have hpair0 : (countByCategory txs).Pairwise
      (fun e1 e2 => firstIdx txs e1.1 < firstIdx txs e2.1) := by
    have hkeys := (countBy_invariant txs).2.2
    unfold keysOf at hkeys
    exact (@List.pairwise_map _ _ Prod.fst
      (fun k1 k2 => firstIdx txs k1 < firstIdx txs k2) (countByCategory txs)).mp hkeys
  have hsorted := insertionSort_stable (fun e => firstIdx txs e.1) (countByCategory txs) hpair0
  have hchar : ∀ e ∈ (countByCategory txs).insertionSort (fun x y => y.2 ≤ x.2),
      e.2 = txCount txs e.1 := fun e he =>
    countByCategory_count (keysOf_nodup txs) e ((List.mem_insertionSort _).mp he)
  have hsorted2 : ((countByCategory txs).insertionSort (fun x y => y.2 ≤ x.2)).Pairwise
      (fun e1 e2 => txCount txs e2.1 < txCount txs e1.1 ∨
        (txCount txs e2.1 = txCount txs e1.1 ∧ firstIdx txs e1.1 < firstIdx txs e2.1)) := by
    refine hsorted.imp_of_mem (fun {e1 e2} h1 h2 hst => ?_)
    rcases hst with h | ⟨heq, hpos⟩
    · exact Or.inl (by rw [← hchar e1 h1, ← hchar e2 h2]; exact h)
    · exact Or.inr ⟨by rw [← hchar e1 h1, ← hchar e2 h2]; exact heq, hpos⟩
  have hids : (sortedCategoryIds txs).Pairwise
      (fun k1 k2 => txCount txs k2 < txCount txs k1 ∨
        (txCount txs k2 = txCount txs k1 ∧ firstIdx txs k1 < firstIdx txs k2)) := by
    unfold sortedCategoryIds
    exact List.pairwise_map.mpr hsorted2
  constructor
  · unfold topCategories
    refine List.Pairwise.filterMap _ ?_ hids
    intro k1 k2 hr c1 hc1 c2 hc2
    have h1 : cats.find? (fun c => c.id == k1) = some c1 := Option.mem_def.mp hc1
    have h2 : cats.find? (fun c => c.id == k2) = some c2 := Option.mem_def.mp hc2
    have hid1 : c1.id = k1 := by simpa using List.find?_some h1
    have hid2 : c2.id = k2 := by simpa using List.find?_some h2
    rw [← hid1, ← hid2] at hr
    exact hr
  · intro c
    constructor
    · intro hc
      obtain ⟨k, hk, hfind⟩ := List.mem_filterMap.mp hc
      have hcid : c.id = k := by simpa using List.find?_some hfind
      have hmem : c ∈ cats := List.mem_of_find?_eq_some hfind
      have hkk : k ∈ keysOf txs := by
        unfold sortedCategoryIds at hk
        obtain ⟨e, he, hek⟩ := List.mem_map.mp hk
        have hcb : e ∈ countByCategory txs := (List.mem_insertionSort _).mp he
        exact hek ▸ List.mem_map_of_mem Prod.fst hcb
      obtain ⟨tx, htx, hkey⟩ := mem_keysOf.mp hkk
      exact ⟨hmem, tx, htx, hkey.trans hcid.symm⟩
    · rintro ⟨hmem, tx, htx, hkey⟩
      have hkk : c.id ∈ keysOf txs := mem_keysOf.mpr ⟨tx, htx, hkey⟩
      have hks : c.id ∈ sortedCategoryIds txs := by
        unfold sortedCategoryIds
        unfold keysOf at hkk
        obtain ⟨e, he, hek⟩ := List.mem_map.mp hkk
        exact hek ▸ List.mem_map_of_mem Prod.fst ((List.mem_insertionSort _).mpr he)
      exact List.mem_filterMap.mpr ⟨c.id, hks, find?_id_nodup cats hnd c hmem⟩

/-- First category of the C8 counterexample (first in the reference list). -/
def cexCatA : Category :=
  { id := "a", user_id := "u1", parent_id := none, name := "Alpha", ctype := "EXPENSE",
    icon := none, color := "#111111", opening_balance := 0 }

/-- Second category of the C8 counterexample (second in the reference list). -/
def cexCatB : Category :=
  { id := "b", user_id := "u1", parent_id := none, name := "Beta", ctype := "EXPENSE",
    icon := none, color := "#222222", opening_balance := 0 }

/-- Transaction referencing category a. -/
def cexTxA : Transaction :=
  { from_account_id := some "acc-1", to_account_id := none, category_id := some "a",
    amount := 3, description := none, transaction_date := "2024-03-02",
    entry_type := .EXPENSES, added_by := .MANUAL, status := "COMPLETED", attachments := [] }

/-- Transaction referencing category b. -/
def cexTxB : Transaction :=
  { from_account_id := some "acc-1", to_account_id := none, category_id := some "b",
    amount := 4, description := none, transaction_date := "2024-03-01",
    entry_type := .EXPENSES, added_by := .MANUAL, status := "COMPLETED", attachments := [] }

/-- C8 counterexample: categories a and b tie at one referencing transaction
each, but b is referenced first in the transaction list, so topCategories
returns b before a — not the reference-list order a, b that the claim
predicts for ties; and a reference-list category with zero referencing
transactions is dropped entirely rather than ranked last. -/
theorem C8_counterexample :
    topCategories [cexTxB, cexTxA] [cexCatA, cexCatB] = [cexCatB, cexCatA] ∧
    txCount [cexTxB, cexTxA] cexCatA.id = txCount [cexTxB, cexTxA] cexCatB.id ∧
    topCategories [cexTxB, cexTxA] [cexCatA, cexCatB] ≠ [cexCatA, cexCatB] ∧
    topCategories ([] : List Transaction) [cexCatA] = [] := by
  have h1 : topCategories [cexTxB, cexTxA] [cexCatA, cexCatB] = [cexCatB, cexCatA] := rfl
  refine ⟨h1, rfl, ?_, rfl⟩
  rw [h1]
  intro h
  injection h with hh _
  have h2 : cexCatB.id = cexCatA.id := congrArg (fun c => c.id) hh
  simp [cexCatA, cexCatB] at h2

/-- C8 witness: the amended claim instantiated on the counterexample data
(the reference-list ids are distinct). -/
theorem C8_topCategories_witness :
    (topCategories [cexTxB, cexTxA] [cexCatA, cexCatB]).Pairwise
      (fun c1 c2 =>
        txCount [cexTxB, cexTxA] c2.id < txCount [cexTxB, cexTxA] c1.id ∨
          (txCount [cexTxB, cexTxA] c2.id = txCount [cexTxB, cexTxA] c1.id ∧
            firstIdx [cexTxB, cexTxA] c1.id < firstIdx [cexTxB, cexTxA] c2.id)) ∧
    (∀ c, c ∈ topCategories [cexTxB, cexTxA] [cexCatA, cexCatB] ↔
        c ∈ [cexCatA, cexCatB] ∧ ∃ tx ∈ [cexTxB, cexTxA], categoryKey tx = c.id) :=
  C8_topCategories [cexTxB, cexTxA] [cexCatA, cexCatB] (by simp [cexCatA, cexCatB])

/-- Account record (types/database), with the fields login-check reads and
writes. -/
structure Account where
  id : String
  user_id : String
  name : String
  atype : String
  currency_code : String
  opening_balance : Rat
  balance : Rat
  is_active : Bool
deriving DecidableEq, Repr

/-- User preference record, with the fields login-check reads and writes. -/
structure UserPreference where
  default_income_account_id : Option String
  default_expense_account_id : Option String
  migration_completed : Bool
  default_currency : String
deriving DecidableEq, Repr

/-- The remote data store as seen by one user: the singleton preference row,
the account and category lists, and a counter from which the backend mints
fresh row ids. -/
structure DB where
  pref : Option UserPreference
  accounts : List Account
  categories : List Category
  nextId : Nat
deriving Repr

/-- Backend failure injection: whether the n-th createAccount call of a run
fails (network or storage error, so no row is created and data is null).
All other operations succeed in this model. -/
structure Env where
  failCreateAccount : Nat → Bool

/-- Environment in which every call succeeds. -/
def happyEnv : Env := { failCreateAccount := fun _ => false }

/-- Environment in which every createAccount call fails. -/
def failEnv : Env := { failCreateAccount := fun _ => true }

/-- Write counters observed during one runLoginCheck call. -/
structure Trace where
  accountCreates : Nat
  categoryCreates : Nat
  prefWrites : Nat
deriving DecidableEq, Repr

/-- Fresh account id minted by the backend. -/
def freshId (n : Nat) : String := "row-" ++ Nat.repr n

/-- Default account payload used by login-check (name Income or Cash,
type CASH, USD, zero balances, active). -/
def mkAccount (uid name : String) (n : Nat) : Account :=
  { id := freshId n, user_id := uid, name := name, atype := "CASH",
    currency_code := "USD", opening_balance := 0, balance := 0, is_active := true }

/-- createAccount call: fails when the environment says so (returning null
data and leaving the store unchanged), otherwise appends a fresh account. -/
def createAccountOp (env : Env) (uid name : String) (db : DB) (t : Trace) :
    Option Account × DB × Trace :=
  let t' := { t with accountCreates := t.accountCreates + 1 }
  if env.failCreateAccount t.accountCreates then (none, db, t')
  else
    let acc := mkAccount uid name db.nextId
    (some acc, { db with accounts := db.accounts ++ [acc], nextId := db.nextId + 1 }, t')

/-- Default category table of login-check.ts (DEFAULT_CATEGORIES). -/
def DEFAULT_CATEGORIES : List (String × String × Option String × String) :=
  [("Food", "EXPENSE", some "utensils", "#6b7280"),
   ("Transport", "EXPENSE", some "car", "#3b82f6"),
   ("Shopping", "EXPENSE", some "shopping-cart", "#8b5cf6"),
   ("Bills", "EXPENSE", some "file-text", "#ef4444"),
   ("Other", "EXPENSE", some "circle-dot", "#6b7280"),
   ("Salary", "INCOME", some "briefcase", "#10b981"),
   ("Freelance", "INCOME", some "laptop", "#3b82f6"),
   ("Other", "INCOME", some "circle-dot", "#6b7280")]

/-- createCategory call for one default-category row (result ignored by the
caller, exactly as in the source loop). -/
def createCategoryOp (uid : String) (c : String × String × Option String × String)
    (db : DB) (t : Trace) : DB × Trace :=
  ({ db with
      categories := db.categories ++
        [{ id := freshId db.nextId, user_id := uid, parent_id := none, name := c.1,
           ctype := c.2.1, icon := c.2.2.1, color := c.2.2.2, opening_balance := 0 }],
      nextId := db.nextId + 1 },
   { t with categoryCreates := t.categoryCreates + 1 })

/-- findAccount call: first account with the given id, if any. -/
def findAccountOp (db : DB) (accountId : String) : Option Account :=
  db.accounts.find? (fun a => a.id == accountId)

/-- updateUserPreference call writing the two default-account pointers
(login-check.ts:107-110). -/
def writePrefPointers (db : DB) (inc exp : Option String) : DB :=
  { db with pref := db.pref.map fun p =>
      { p with default_income_account_id := inc, default_expense_account_id := exp } }

/-- updateUserPreference call of the migration path (login-check.ts:154-158):
set both pointers and migration_completed. -/
def writePrefMigrated (db : DB) (inc exp : String) : DB :=
  { db with pref := db.pref.map fun p =>
      { p with default_income_account_id := some inc,
               default_expense_account_id := some exp, migration_completed := true } }

/-- Result of runLoginCheck: the refetched triple, or a tagged error. -/
inductive LoginCheckResult where
  | ok (preference : UserPreference) (accounts : List Account) (categories : List Category)
  | err (msg : String)
deriving DecidableEq, Repr

/-- Whether a login-check result is the ok case. -/
def LoginCheckResult.isOk : LoginCheckResult → Bool
  | .ok _ _ _ => true
  | .err _ => false

/-- Account count of an ok result. -/
def LoginCheckResult.accountCount : LoginCheckResult → Option Nat
  | .ok _ accounts _ => some accounts.length
  | .err _ => none

/-- Category count of an ok result. -/
def LoginCheckResult.categoryCount : LoginCheckResult → Option Nat
  | .ok _ _ categories => some categories.length
  | .err _ => none

/-- Result, final store and write counters of one runLoginCheck call. -/
structure RunOut where
  res : LoginCheckResult
  db : DB
  tr : Trace

/-- Outcome of one self-heal block of the migrated branch
(login-check.ts:72-104): the possibly updated pointer, the updated flag and
the store and trace after the block. -/
structure HealOut where
  ptr : Option String
  updated : Bool
  db : DB
  tr : Trace

/-- Self-heal of one default-account pointer (login-check.ts:72-104): a null
pointer is left alone; a pointer whose account still exists is left alone; a
dangling pointer triggers createAccount, after which the pointer becomes the
new id (or null when creation failed) and updated is set. -/
def healPointer (env : Env) (uid name : String) (db : DB) (t : Trace) :
    Option String → HealOut
  | none => ⟨none, false, db, t⟩
  | some accountId =>
    match findAccountOp db accountId with
    | some _ => ⟨some accountId, false, db, t⟩
    | none =>
      let out := createAccountOp env uid name db t
      ⟨out.1.map (fun a => a.id), true, out.2.1, out.2.2⟩

/-- Refetch of the triple (login-check.ts refetch): fails only when the
preference row is missing. -/
def refetchOp (db : DB) (t : Trace) : RunOut :=
  match db.pref with
  | none => ⟨.err "No preference", db, t⟩
  | some p => ⟨.ok p db.accounts db.categories, db, t⟩

/-- Tail of the migrated branch (login-check.ts:106-115) after the two
self-heal blocks: write the preference only when a block ran and a pointer
value changed, then refetch. -/
def migratedFinish (p : UserPreference) (h1 h2 : HealOut) : RunOut :=
  if (h1.updated || h2.updated) &&
      ((h1.ptr != p.default_income_account_id) ||
        (h2.ptr != p.default_expense_account_id)) then
    refetchOp (writePrefPointers h2.db h1.ptr h2.ptr)
      { h2.tr with prefWrites := h2.tr.prefWrites + 1 }
  else
    refetchOp h2.db h2.tr

/-- runLoginCheck (login-check.ts:60-164) over the model store.
With migration_completed true it re-validates the two default-account
pointers, replaces dangling ones, writes the preference only when a pointer
value changed, and refetches. With migration_completed false it creates the
two default accounts (both calls are made before the check), fails the run
when either is missing, otherwise creates the default categories, writes the
pointers plus migration_completed and refetches. -/
def runLoginCheck (env : Env) (uid : String) (db : DB) : RunOut :=
  let t0 : Trace := ⟨0, 0, 0⟩
  match db.pref with
  | none => ⟨.err "No preference", db, t0⟩
  | some preference =>
    if preference.migration_completed then
      let h1 := healPointer env uid "Income" db t0 preference.default_income_account_id
      let h2 := healPointer env uid "Cash" h1.db h1.tr preference.default_expense_account_id
      migratedFinish preference h1 h2
    else
      let o1 := createAccountOp env uid "Income" db t0
      let o2 := createAccountOp env uid "Cash" o1.2.1 o1.2.2
      match o1.1, o2.1 with
      | some incomeAccount, some expenseAccount =>
        let s3 := DEFAULT_CATEGORIES.foldl (fun s c => createCategoryOp uid c s.1 s.2)
          (o2.2.1, o2.2.2)
        let db4 := writePrefMigrated s3.1 incomeAccount.id expenseAccount.id
        refetchOp db4 { s3.2 with prefWrites := s3.2.prefWrites + 1 }
      | _, _ => ⟨.err "Failed to create default accounts", o2.2.1, o2.2.2⟩

theorem find?_append_isSome {α : Type} {p : α → Bool} {l1 : List α}
    (h : (l1.find? p).isSome = true) (l2 : List α) :
    ((l1 ++ l2).find? p).isSome = true := by
  obtain ⟨a, ha, hpa⟩ := List.find?_isSome.mp h
  exact List.find?_isSome.mpr ⟨a, List.mem_append_left _ ha, hpa⟩

theorem healPointer_resolved (env : Env) (uid name : String) (db : DB) (t : Trace)
    {i : String} (h : (findAccountOp db i).isSome = true) :
    healPointer env uid name db t (some i) = ⟨some i, false, db, t⟩ := by
  obtain ⟨a, ha⟩ := Option.isSome_iff_exists.mp h
  simp [healPointer, ha]

theorem healPointer_dangling_happy (uid name : String) (db : DB) (t : Trace)
    {i : String} (h : findAccountOp db i = none) :
    healPointer happyEnv uid name db t (some i) =
      ⟨some (freshId db.nextId), true,
        { db with accounts := db.accounts ++ [mkAccount uid name db.nextId],
                  nextId := db.nextId + 1 },
        { t with accountCreates := t.accountCreates + 1 }⟩ := by
  simp [healPointer, h, createAccountOp, happyEnv, mkAccount]

theorem healPointer_dangling_fail (env : Env) (uid name : String) (db : DB) (t : Trace)
    {i : String} (h : findAccountOp db i = none)
    (hf : env.failCreateAccount t.accountCreates = true) :
    healPointer env uid name db t (some i) =
      ⟨none, true, db, { t with accountCreates := t.accountCreates + 1 }⟩ := by
  simp [healPointer, h, createAccountOp, hf]

theorem mkAccount_resolves (uid name : String) (db : DB) :
    (findAccountOp
        { db with accounts := db.accounts ++ [mkAccount uid name db.nextId],
                  nextId := db.nextId + 1 }
        (freshId db.nextId)).isSome = true := by
  refine List.find?_isSome.mpr ⟨mkAccount uid name db.nextId, ?_, by simp [mkAccount]⟩
  exact List.mem_append_right _ (by simp)

theorem healPointer_facts (uid name : String) (db : DB) (t : Trace) (ptr : Option String) :
    (∃ l, (healPointer happyEnv uid name db t ptr).db.accounts = db.accounts ++ l) ∧
    (healPointer happyEnv uid name db t ptr).db.pref = db.pref ∧
    (healPointer happyEnv uid name db t ptr).db.categories = db.categories ∧
    (∀ j, (healPointer happyEnv uid name db t ptr).ptr = some j →
      (findAccountOp (healPointer happyEnv uid name db t ptr).db j).isSome = true) ∧
    ((healPointer happyEnv uid name db t ptr).updated = false →
      (healPointer happyEnv uid name db t ptr).ptr = ptr ∧
      (healPointer happyEnv uid name db t ptr).db = db ∧
      (healPointer happyEnv uid name db t ptr).tr = t) := by
  cases ptr with
  | none =>
    refine ⟨⟨[], by simp [healPointer]⟩, rfl, rfl, ?_, fun _ => ⟨rfl, rfl, rfl⟩⟩
    intro j hj
    simp [healPointer] at hj
  | some i =>
    cases hf : findAccountOp db i with
    | some a =>
      have hsome : (findAccountOp db i).isSome = true := by simp [hf]
      rw [healPointer_resolved happyEnv uid name db t hsome]
      refine ⟨⟨[], by simp⟩, rfl, rfl, ?_, fun _ => ⟨rfl, rfl, rfl⟩⟩
      intro j hj
      obtain rfl : i = j := by simpa using hj
      exact hsome
    | none =>
      rw [healPointer_dangling_happy uid name db t hf]
      refine ⟨⟨[mkAccount uid name db.nextId], rfl⟩, rfl, rfl, ?_, fun h => by simp at h⟩
      intro j hj
      obtain rfl : freshId db.nextId = j := by simpa using hj
      exact mkAccount_resolves uid name db

theorem catFold_accounts (uid : String)
    (l : List (String × String × Option String × String)) (db : DB) (t : Trace) :
    (l.foldl (fun s c => createCategoryOp uid c s.1 s.2) (db, t)).1.accounts = db.accounts ∧
    (l.foldl (fun s c => createCategoryOp uid c s.1 s.2) (db, t)).1.pref = db.pref := by
  induction l generalizing db t with
  | nil => exact ⟨rfl, rfl⟩
  | cons c cs ih =>
    simp only [List.foldl_cons]
    exact ih _ _

theorem runLoginCheck_noop (env : Env) (uid : String) (db : DB) (p : UserPreference)
    (hp : db.pref = some p) (hm : p.migration_completed = true)
    (hi : ∀ j, p.default_income_account_id = some j → (findAccountOp db j).isSome = true)
    (he : ∀ j, p.default_expense_account_id = some j → (findAccountOp db j).isSome = true) :
    runLoginCheck env uid db = ⟨.ok p db.accounts db.categories, db, ⟨0, 0, 0⟩⟩ := by
  have h1 : healPointer env uid "Income" db ⟨0, 0, 0⟩ p.default_income_account_id =
      ⟨p.default_income_account_id, false, db, ⟨0, 0, 0⟩⟩ := by
    cases hptr : p.default_income_account_id with
    | none => rfl
    | some j => exact healPointer_resolved env uid "Income" db _ (hi j hptr)
  have h2 : healPointer env uid "Cash" db ⟨0, 0, 0⟩ p.default_expense_account_id =
      ⟨p.default_expense_account_id, false, db, ⟨0, 0, 0⟩⟩ := by
    cases hptr : p.default_expense_account_id with
    | none => rfl
    | some j => exact healPointer_resolved env uid "Cash" db _ (he j hptr)
  unfold runLoginCheck
  rw [hp]
  simp only [hm, if_true, h1]
  simp only [h2]
  simp [migratedFinish, refetchOp, hp]

theorem findAccountOp_mono {dbA dbB : DB} {j : String}
    (h : (findAccountOp dbA j).isSome = true)
    (hacc : ∃ l, dbB.accounts = dbA.accounts ++ l) :
    (findAccountOp dbB j).isSome = true := by
  obtain ⟨l, hl⟩ := hacc
  unfold findAccountOp at h ⊢
  rw [hl]
  exact find?_append_isSome h l

theorem migratedFinish_good (db : DB) (p : UserPreference) (h1 h2 : HealOut)
    (hp : db.pref = some p) (hm : p.migration_completed = true)
    (hpref1 : h1.db.pref = db.pref)
    (hres1 : ∀ j, h1.ptr = some j → (findAccountOp h1.db j).isSome = true)
    (hupd1 : h1.updated = false → h1.ptr = p.default_income_account_id ∧ h1.db = db)
    (hacc2 : ∃ l, h2.db.accounts = h1.db.accounts ++ l)
    (hpref2 : h2.db.pref = h1.db.pref)
    (hres2 : ∀ j, h2.ptr = some j → (findAccountOp h2.db j).isSome = true)
    (hupd2 : h2.updated = false → h2.ptr = p.default_expense_account_id ∧ h2.db = h1.db) :
    ∃ p1, (migratedFinish p h1 h2).db.pref = some p1 ∧
      p1.migration_completed = true ∧
      (∀ j, p1.default_income_account_id = some j →
        (findAccountOp (migratedFinish p h1 h2).db j).isSome = true) ∧
      (∀ j, p1.default_expense_account_id = some j →
        (findAccountOp (migratedFinish p h1 h2).db j).isSome = true) ∧
      (migratedFinish p h1 h2).res =
        .ok p1 (migratedFinish p h1 h2).db.accounts (migratedFinish p h1 h2).db.categories := by
  have hpref2' : h2.db.pref = some p := hpref2.trans (hpref1.trans hp)
  have hres1' : ∀ j, h1.ptr = some j → (findAccountOp h2.db j).isSome = true :=
    fun j hj => findAccountOp_mono (hres1 j hj) hacc2
  unfold migratedFinish
  by_cases hcond : ((h1.updated || h2.updated) &&
      ((h1.ptr != p.default_income_account_id) ||
        (h2.ptr != p.default_expense_account_id))) = true
  · rw [if_pos hcond]
    refine ⟨⟨h1.ptr, h2.ptr, p.migration_completed, p.default_currency⟩, ?_, hm, ?_, ?_, ?_⟩
    · simp [refetchOp, writePrefPointers, hpref2']
    · intro j hj
      have hj' : h1.ptr = some j := hj
      have hmono : (findAccountOp (writePrefPointers h2.db h1.ptr h2.ptr) j).isSome = true :=
        findAccountOp_mono (hres1' j hj') ⟨[], by simp [writePrefPointers]⟩
      have hdb : (refetchOp (writePrefPointers h2.db h1.ptr h2.ptr)
          { h2.tr with prefWrites := h2.tr.prefWrites + 1 }).db =
          writePrefPointers h2.db h1.ptr h2.ptr := by
        simp [refetchOp, writePrefPointers, hpref2']
      rw [hdb]
      exact hmono
    · intro j hj
      have hj' : h2.ptr = some j := hj
      have hmono : (findAccountOp (writePrefPointers h2.db h1.ptr h2.ptr) j).isSome = true :=
        findAccountOp_mono (hres2 j hj') ⟨[], by simp [writePrefPointers]⟩
      have hdb : (refetchOp (writePrefPointers h2.db h1.ptr h2.ptr)
          { h2.tr with prefWrites := h2.tr.prefWrites + 1 }).db =
          writePrefPointers h2.db h1.ptr h2.ptr := by
        simp [refetchOp, writePrefPointers, hpref2']
      rw [hdb]
      exact hmono
    · simp [refetchOp, writePrefPointers, hpref2']
  · rw [if_neg hcond]
    have hpoint : (∀ j, p.default_income_account_id = some j →
        (findAccountOp h2.db j).isSome = true) ∧
        (∀ j, p.default_expense_account_id = some j →
          (findAccountOp h2.db j).isSome = true) := by
      rcases Bool.and_eq_false_iff.mp (Bool.eq_false_iff.mpr hcond) with hA | hB
      · rcases Bool.or_eq_false_iff.mp hA with ⟨hu1, hu2⟩
        obtain ⟨hptr1, hdb1⟩ := hupd1 hu1
        obtain ⟨hptr2, hdb2⟩ := hupd2 hu2
        constructor
        · intro j hj
          rw [hdb2]
          exact hres1 j (hptr1.trans hj)
        · intro j hj
          exact hres2 j (hptr2.trans hj)
      · rcases Bool.or_eq_false_iff.mp hB with ⟨hc1, hc2⟩
        have hptr1 : h1.ptr = p.default_income_account_id := by
          simpa using hc1
        have hptr2 : h2.ptr = p.default_expense_account_id := by
          simpa using hc2
        constructor
        · intro j hj
          exact hres1' j (hptr1.trans hj)
        · intro j hj
          exact hres2 j (hptr2.trans hj)
    refine ⟨p, ?_, hm, ?_, ?_, ?_⟩
    · simp [refetchOp, hpref2']
    · intro j hj
      have hdb : (refetchOp h2.db h2.tr).db = h2.db := by simp [refetchOp, hpref2']
      rw [hdb]
      exact hpoint.1 j hj
    · intro j hj
      have hdb : (refetchOp h2.db h2.tr).db = h2.db := by simp [refetchOp, hpref2']
      rw [hdb]
      exact hpoint.2 j hj
    · simp [refetchOp, hpref2']

theorem runLoginCheck_migrated (env : Env) (uid : String) (db : DB) (p : UserPreference)
    (hp : db.pref = some p) (hm : p.migration_completed = true) :
    runLoginCheck env uid db =
      migratedFinish p
        (healPointer env uid "Income" db ⟨0, 0, 0⟩ p.default_income_account_id)
        (healPointer env uid "Cash"
          (healPointer env uid "Income" db ⟨0, 0, 0⟩ p.default_income_account_id).db
          (healPointer env uid "Income" db ⟨0, 0, 0⟩ p.default_income_account_id).tr
          p.default_expense_account_id) := by
  unfold runLoginCheck
  rw [hp]
  simp only [hm, if_true]

theorem runLoginCheck_good (uid : String) (db : DB)
    (hok : (runLoginCheck happyEnv uid db).res.isOk = true) :
    ∃ p1, (runLoginCheck happyEnv uid db).db.pref = some p1 ∧
      p1.migration_completed = true ∧
      (∀ j, p1.default_income_account_id = some j →
        (findAccountOp (runLoginCheck happyEnv uid db).db j).isSome = true) ∧
      (∀ j, p1.default_expense_account_id = some j →
        (findAccountOp (runLoginCheck happyEnv uid db).db j).isSome = true) ∧
      (runLoginCheck happyEnv uid db).res =
        .ok p1 (runLoginCheck happyEnv uid db).db.accounts
          (runLoginCheck happyEnv uid db).db.categories := by
  cases hp : db.pref with
  | none =>
    exfalso
    unfold runLoginCheck at hok
    rw [hp] at hok
    simp [LoginCheckResult.isOk] at hok
  | some p =>
    by_cases hm : p.migration_completed = true
    · rw [runLoginCheck_migrated happyEnv uid db p hp hm]
      obtain ⟨hacc1, hpref1, hcat1, hres1, hupd1⟩ :=
        healPointer_facts uid "Income" db ⟨0, 0, 0⟩ p.default_income_account_id
      obtain ⟨hacc2, hpref2, hcat2, hres2, hupd2⟩ :=
        healPointer_facts uid "Cash"
          (healPointer happyEnv uid "Income" db ⟨0, 0, 0⟩ p.default_income_account_id).db
          (healPointer happyEnv uid "Income" db ⟨0, 0, 0⟩ p.default_income_account_id).tr
          p.default_expense_account_id
      exact migratedFinish_good db p _ _ hp hm hpref1 hres1
        (fun hu => ⟨(hupd1 hu).1, (hupd1 hu).2.1⟩) hacc2 hpref2 hres2
        (fun hu => ⟨(hupd2 hu).1, (hupd2 hu).2.1⟩)
    · rw [Bool.not_eq_true] at hm
      unfold runLoginCheck
      rw [hp]
      simp only [hm, if_false]
      simp only [createAccountOp, happyEnv, Bool.false_eq_true, if_false]
      obtain ⟨hcacc, hcpref⟩ := catFold_accounts uid DEFAULT_CATEGORIES
        { pref := some p,
          accounts := db.accounts ++
            [mkAccount uid "Income" db.nextId, mkAccount uid "Cash" (db.nextId + 1)],
          categories := db.categories, nextId := db.nextId + 1 + 1 }
        ⟨2, 0, 0⟩
      refine ⟨⟨some (mkAccount uid "Income" db.nextId).id,
          some (mkAccount uid "Cash" (db.nextId + 1)).id, true, p.default_currency⟩,
        ?_, rfl, ?_, ?_, ?_⟩
      · simp [refetchOp, writePrefMigrated, hcpref, hp]
      · intro j hj
        have hj' : some (mkAccount uid "Income" db.nextId).id = some j := hj
        obtain rfl : (mkAccount uid "Income" db.nextId).id = j := by simpa using hj'
        have hfind : (findAccountOp
            (writePrefMigrated (DEFAULT_CATEGORIES.foldl
              (fun s c => createCategoryOp uid c s.1 s.2)
              ({ pref := some p,
                 accounts := db.accounts ++
                   [mkAccount uid "Income" db.nextId, mkAccount uid "Cash" (db.nextId + 1)],
                 categories := db.categories, nextId := db.nextId + 1 + 1 },
                ⟨2, 0, 0⟩)).1 (mkAccount uid "Income" db.nextId).id
              (mkAccount uid "Cash" (db.nextId + 1)).id)
            (mkAccount uid "Income" db.nextId).id).isSome = true := by
          unfold findAccountOp writePrefMigrated
          simp only [hcacc]
          refine List.find?_isSome.mpr
            ⟨mkAccount uid "Income" db.nextId, ?_, beq_self_eq_true _⟩
          exact List.mem_append_right _ (by simp)
        simp [refetchOp, writePrefMigrated, hcpref, hp] at hfind ⊢
        exact hfind
      · intro j hj
        have hj' : some (mkAccount uid "Cash" (db.nextId + 1)).id = some j := hj
        obtain rfl : (mkAccount uid "Cash" (db.nextId + 1)).id = j := by simpa using hj'
        have hfind : (findAccountOp
            (writePrefMigrated (DEFAULT_CATEGORIES.foldl
              (fun s c => createCategoryOp uid c s.1 s.2)
              ({ pref := some p,
                 accounts := db.accounts ++
                   [mkAccount uid "Income" db.nextId, mkAccount uid "Cash" (db.nextId + 1)],
                 categories := db.categories, nextId := db.nextId + 1 + 1 },
                ⟨2, 0, 0⟩)).1 (mkAccount uid "Income" db.nextId).id
              (mkAccount uid "Cash" (db.nextId + 1)).id)
            (mkAccount uid "Cash" (db.nextId + 1)).id).isSome = true := by
          unfold findAccountOp writePrefMigrated
          simp only [hcacc]
          refine List.find?_isSome.mpr
            ⟨mkAccount uid "Cash" (db.nextId + 1), ?_, beq_self_eq_true _⟩
          exact List.mem_append_right _ (by simp)
        simp [refetchOp, writePrefMigrated, hcpref, hp] at hfind ⊢
        exact hfind
      · simp [refetchOp, writePrefMigrated, hcpref, hp]

/-- C3: running the provisioning routine twice in succession with no
failures and no external changes performs no account creations, no
category creations and no preference writes on the second call, and the
second call returns the same result (hence the same account and category
counts) as the first. -/
theorem C3_idempotent (uid : String) (db : DB)
    (hok : (runLoginCheck happyEnv uid db).res.isOk = true) :
    (runLoginCheck happyEnv uid (runLoginCheck happyEnv uid db).db).tr.accountCreates = 0 ∧
    (runLoginCheck happyEnv uid (runLoginCheck happyEnv uid db).db).tr.categoryCreates = 0 ∧
    (runLoginCheck happyEnv uid (runLoginCheck happyEnv uid db).db).tr.prefWrites = 0 ∧
    (runLoginCheck happyEnv uid (runLoginCheck happyEnv uid db).db).res =
      (runLoginCheck happyEnv uid db).res ∧
    (runLoginCheck happyEnv uid (runLoginCheck happyEnv uid db).db).res.accountCount =
      (runLoginCheck happyEnv uid db).res.accountCount ∧
    (runLoginCheck happyEnv uid (runLoginCheck happyEnv uid db).db).res.categoryCount =
      (runLoginCheck happyEnv uid db).res.categoryCount := by
  obtain ⟨p1, hpref, hm, hi, he, hres⟩ := runLoginCheck_good uid db hok
  have h2 := runLoginCheck_noop happyEnv uid (runLoginCheck happyEnv uid db).db p1 hpref hm hi he
  rw [h2, hres]
  simp [LoginCheckResult.accountCount, LoginCheckResult.categoryCount]

/-- Fresh-user preference used by the provisioning witnesses. -/
def wPrefNew : UserPreference :=
  { default_income_account_id := none, default_expense_account_id := none,
    migration_completed := false, default_currency := "USD" }

/-- Fresh-user store used by the provisioning witnesses. -/
def wDBNew : DB := { pref := some wPrefNew, accounts := [], categories := [], nextId := 0 }

/-- C3 witness: idempotence instantiated on a concrete fresh-user store. -/
theorem C3_idempotent_witness :
    (runLoginCheck happyEnv "u1" (runLoginCheck happyEnv "u1" wDBNew).db).tr.accountCreates = 0 ∧
    (runLoginCheck happyEnv "u1" (runLoginCheck happyEnv "u1" wDBNew).db).tr.categoryCreates = 0 ∧
    (runLoginCheck happyEnv "u1" (runLoginCheck happyEnv "u1" wDBNew).db).tr.prefWrites = 0 ∧
    (runLoginCheck happyEnv "u1" (runLoginCheck happyEnv "u1" wDBNew).db).res =
      (runLoginCheck happyEnv "u1" wDBNew).res ∧
    (runLoginCheck happyEnv "u1" (runLoginCheck happyEnv "u1" wDBNew).db).res.accountCount =
      (runLoginCheck happyEnv "u1" wDBNew).res.accountCount ∧
    (runLoginCheck happyEnv "u1" (runLoginCheck happyEnv "u1" wDBNew).db).res.categoryCount =
      (runLoginCheck happyEnv "u1" wDBNew).res.categoryCount :=
  C3_idempotent "u1" wDBNew rfl

/-- C4: in the migrated state, when the stored income pointer no longer
resolves but the expense pointer does, one run creates exactly one new
account (the replacement Income account), points
default_income_account_id at it, and leaves the value of
default_expense_account_id unchanged. -/
theorem C4_self_heal (uid : String) (db : DB) (p : UserPreference) (i e : String)
    (hp : db.pref = some p) (hm : p.migration_completed = true)
    (hi : p.default_income_account_id = some i)
    (hdang : findAccountOp db i = none)
    (he : p.default_expense_account_id = some e)
    (heres : (findAccountOp db e).isSome = true) :
    (runLoginCheck happyEnv uid db).tr.accountCreates = 1 ∧
    (runLoginCheck happyEnv uid db).db.accounts =
      db.accounts ++ [mkAccount uid "Income" db.nextId] ∧
    ∃ p1, (runLoginCheck happyEnv uid db).db.pref = some p1 ∧
      p1.default_income_account_id = some (freshId db.nextId) ∧
      p1.default_expense_account_id = p.default_expense_account_id := by
  have h1eq : healPointer happyEnv uid "Income" db ⟨0, 0, 0⟩ p.default_income_account_id =
      ⟨some (freshId db.nextId), true,
        { db with accounts := db.accounts ++ [mkAccount uid "Income" db.nextId],
                  nextId := db.nextId + 1 },
        { accountCreates := 1, categoryCreates := 0, prefWrites := 0 }⟩ := by
    rw [hi]
    exact healPointer_dangling_happy uid "Income" db ⟨0, 0, 0⟩ hdang
  have heres2 : (findAccountOp
      { db with accounts := db.accounts ++ [mkAccount uid "Income" db.nextId],
                nextId := db.nextId + 1 } e).isSome = true :=
    findAccountOp_mono heres ⟨[mkAccount uid "Income" db.nextId], rfl⟩
  have h2eq : healPointer happyEnv uid "Cash"
      { db with accounts := db.accounts ++ [mkAccount uid "Income" db.nextId],
                nextId := db.nextId + 1 }
      { accountCreates := 1, categoryCreates := 0, prefWrites := 0 }
      p.default_expense_account_id =
      ⟨some e, false,
        { db with accounts := db.accounts ++ [mkAccount uid "Income" db.nextId],
                  nextId := db.nextId + 1 },
        { accountCreates := 1, categoryCreates := 0, prefWrites := 0 }⟩ := by
    rw [he]
    exact healPointer_resolved happyEnv uid "Cash" _ _ heres2
  rw [runLoginCheck_migrated happyEnv uid db p hp hm, h1eq]
  rw [h2eq]
  simp only [migratedFinish]
  rw [he, hi]
  by_cases hfi : freshId db.nextId = i
  · have hcond : ((true || false) &&
        ((some (freshId db.nextId) != some i) || (some e != some e))) = false := by
      simp [hfi]
    rw [hcond]
    simp only [Bool.false_eq_true, if_false]
    refine ⟨by simp [refetchOp, hp], by simp [refetchOp, hp], p, by simp [refetchOp, hp], ?_, ?_⟩
    · rw [hi, hfi]
    · rw [he]
  · have hcond : ((true || false) &&
        ((some (freshId db.nextId) != some i) || (some e != some e))) = true := by
      simp [hfi]
    rw [hcond]
    simp only [if_true]
    refine ⟨?_, ?_, ⟨some (freshId db.nextId), some e, p.migration_completed,
        p.default_currency⟩, ?_, rfl, rfl⟩
    · simp [refetchOp, writePrefPointers, hp]
    · simp [refetchOp, writePrefPointers, hp]
    · simp [refetchOp, writePrefPointers, hp]

/-- Existing expense account for the self-heal witnesses. -/
def wAcctE : Account :=
  { id := "acct-e", user_id := "u1", name := "Cash", atype := "CASH",
    currency_code := "USD", opening_balance := 0, balance := 0, is_active := true }

/-- Migrated preference whose income pointer dangles. -/
def wPrefMig : UserPreference :=
  { default_income_account_id := some "gone", default_expense_account_id := some "acct-e",
    migration_completed := true, default_currency := "USD" }

/-- Store for the self-heal witnesses. -/
def wDBMig : DB :=
  { pref := some wPrefMig, accounts := [wAcctE], categories := [], nextId := 7 }

/-- C4 witness: the self-heal claim instantiated on a concrete store. -/
theorem C4_self_heal_witness :
    (runLoginCheck happyEnv "u1" wDBMig).tr.accountCreates = 1 ∧
    (runLoginCheck happyEnv "u1" wDBMig).db.accounts =
      wDBMig.accounts ++ [mkAccount "u1" "Income" wDBMig.nextId] ∧
    ∃ p1, (runLoginCheck happyEnv "u1" wDBMig).db.pref = some p1 ∧
      p1.default_income_account_id = some (freshId wDBMig.nextId) ∧
      p1.default_expense_account_id = wPrefMig.default_expense_account_id :=
  C4_self_heal "u1" wDBMig wPrefMig "gone" "acct-e" rfl rfl rfl rfl rfl rfl

/-- C7: in the not-migrated state, when either of the two default-account
creations fails, the run returns an error, creates no categories, never
writes the preference (so migration_completed stays false for the next
run). -/
theorem C7_migration_failure (env : Env) (uid : String) (db : DB) (p : UserPreference)
    (hp : db.pref = some p) (hm : p.migration_completed = false)
    (hf : env.failCreateAccount 0 = true ∨ env.failCreateAccount 1 = true) :
    (∃ msg, (runLoginCheck env uid db).res = .err msg) ∧
    (runLoginCheck env uid db).tr.categoryCreates = 0 ∧
    (runLoginCheck env uid db).tr.prefWrites = 0 ∧
    (runLoginCheck env uid db).db.pref = some p ∧
    p.migration_completed = false := by
  unfold runLoginCheck
  rw [hp]
  simp only [hm, Bool.false_eq_true, if_false]
  cases hf0c : env.failCreateAccount 0 with
  | false =>
    cases hf1c : env.failCreateAccount 1 with
    | false =>
      rw [hf0c] at hf
      rw [hf1c] at hf
      simp at hf
    | true =>
      refine ⟨⟨"Failed to create default accounts", ?_⟩, ?_, ?_, ?_, trivial⟩ <;>
        simp [createAccountOp, hf0c, hf1c, hp]
  | true =>
    cases hf1c : env.failCreateAccount 1 with
    | false =>
      refine ⟨⟨"Failed to create default accounts", ?_⟩, ?_, ?_, ?_, trivial⟩ <;>
        simp [createAccountOp, hf0c, hf1c, hp]
    | true =>
      refine ⟨⟨"Failed to create default accounts", ?_⟩, ?_, ?_, ?_, trivial⟩ <;>
        simp [createAccountOp, hf0c, hf1c, hp]

/-- Environment failing exactly the first createAccount call of a run. -/
def failFirstEnv : Env := { failCreateAccount := fun n => n == 0 }

/-- C7 witness: a fresh-user store under an environment whose first account
creation fails. -/
theorem C7_migration_failure_witness :
    (∃ msg, (runLoginCheck failFirstEnv "u1" wDBNew).res = .err msg) ∧
    (runLoginCheck failFirstEnv "u1" wDBNew).tr.categoryCreates = 0 ∧
    (runLoginCheck failFirstEnv "u1" wDBNew).tr.prefWrites = 0 ∧
    (runLoginCheck failFirstEnv "u1" wDBNew).db.pref = some wPrefNew ∧
    wPrefNew.migration_completed = false :=
  C7_migration_failure failFirstEnv "u1" wDBNew wPrefNew rfl rfl (Or.inl rfl)

/-- C10: in the migrated self-heal path, when a set pointer no longer
resolves and the replacement createAccount fails, the run overwrites the
pointer with null through a preference write and still reports ok. -/
theorem C10_swallowed_failure (uid : String) (db : DB) (p : UserPreference) (i : String)
    (hp : db.pref = some p) (hm : p.migration_completed = true)
    (hi : p.default_income_account_id = some i)
    (hdang : findAccountOp db i = none)
    (hexp : p.default_expense_account_id = none ∨
      ∃ e, p.default_expense_account_id = some e ∧ (findAccountOp db e).isSome = true) :
    (runLoginCheck failEnv uid db).res.isOk = true ∧
    (runLoginCheck failEnv uid db).tr.prefWrites = 1 ∧
    ∃ p1, (runLoginCheck failEnv uid db).db.pref = some p1 ∧
      p1.default_income_account_id = none := by
  have h1eq : healPointer failEnv uid "Income" db ⟨0, 0, 0⟩ p.default_income_account_id =
      ⟨none, true, db, ⟨1, 0, 0⟩⟩ := by
    rw [hi]
    exact healPointer_dangling_fail failEnv uid "Income" db ⟨0, 0, 0⟩ hdang rfl
  rw [runLoginCheck_migrated failEnv uid db p hp hm, h1eq]
  rcases hexp with hnone | ⟨e, he, heres⟩
  · rw [hnone]
    have h2eq : healPointer failEnv uid "Cash" db ⟨1, 0, 0⟩ (none : Option String) =
        ⟨none, false, db, ⟨1, 0, 0⟩⟩ := rfl
    rw [h2eq]
    simp only [migratedFinish]
    rw [hi, hnone]
    have hcond : ((true || false) &&
        (((none : Option String) != some i) || ((none : Option String) != none))) = true := by
      simp
    rw [hcond]
    simp only [if_true]
    exact ⟨by simp [refetchOp, writePrefPointers, hp, LoginCheckResult.isOk],
      by simp [refetchOp, writePrefPointers, hp],
      ⟨none, none, p.migration_completed, p.default_currency⟩,
      by simp [refetchOp, writePrefPointers, hp], rfl⟩
  · rw [he]
    have h2eq := healPointer_resolved failEnv uid "Cash" db ⟨1, 0, 0⟩ heres
    rw [h2eq]
    simp only [migratedFinish]
    rw [hi, he]
    have hcond : ((true || false) &&
        (((none : Option String) != some i) || (some e != some e))) = true := by
      simp
    rw [hcond]
    simp only [if_true]
    exact ⟨by simp [refetchOp, writePrefPointers, hp, LoginCheckResult.isOk],
      by simp [refetchOp, writePrefPointers, hp],
      ⟨none, some e, p.migration_completed, p.default_currency⟩,
      by simp [refetchOp, writePrefPointers, hp], rfl⟩

/-- C10 witness: the swallowed-failure behaviour on a concrete store whose
income pointer dangles, under an environment in which account creation
fails. -/
theorem C10_swallowed_failure_witness :
    (runLoginCheck failEnv "u1" wDBMig).res.isOk = true ∧
    (runLoginCheck failEnv "u1" wDBMig).tr.prefWrites = 1 ∧
    ∃ p1, (runLoginCheck failEnv "u1" wDBMig).db.pref = some p1 ∧
      p1.default_income_account_id = none :=
  C10_swallowed_failure "u1" wDBMig wPrefMig "gone" rfl rfl rfl rfl
    (Or.inr ⟨"acct-e", rfl, rfl⟩)

/-- canSubmit guard of the add-transaction screen (add.tsx:137-145),
with the amount string abstracted as a rational (the string is truthy and
parses positive exactly when the rational is positive). -/
def canSubmit (txType : EntryType) (fromAccountId toAccountId : Option String)
    (amount : Rat) (transactionDate : String) : Bool :=
  (match txType with
   | .CONTRA =>
     optTruthy fromAccountId && optTruthy toAccountId && (fromAccountId != toAccountId)
   | .INCOME => optTruthy toAccountId
   | _ => optTruthy fromAccountId) &&
  decide (0 < amount) && !(transactionDate == "")

/-- handleSubmit of the add-transaction screen (add.tsx:147-203), returning
the list of transaction rows it persists (none when a guard rejects). The
description argument stands for the already trimmed-or-null text. A CONTRA
submission persists the CONTRA row and then two synthetic TRANSFER legs;
INCOME and EXPENSES submissions persist a single MANUAL row. -/
def handleSubmit (txType : EntryType) (fromAccountId toAccountId category_id : Option String)
    (amount : Rat) (description : Option String) (transactionDate : String)
    (attachments : List String) : Option (List Transaction) :=
  if !(canSubmit txType fromAccountId toAccountId amount transactionDate) then none
  else if amount ≤ 0 then none
  else
    let fromId := if txType = .CONTRA ∨ txType = .EXPENSES then fromAccountId else none
    let toId := if txType = .CONTRA ∨ txType = .INCOME then toAccountId else none
    let mainTx : Transaction :=
      { from_account_id := fromId, to_account_id := toId, category_id := category_id,
        amount := amount, description := description, transaction_date := transactionDate,
        entry_type := txType, added_by := .MANUAL, status := "COMPLETED",
        attachments := attachments }
    if txType = .CONTRA then
      some [mainTx,
        { from_account_id := toId, to_account_id := fromId, category_id := category_id,
          amount := amount, description := some "System created transfer",
          transaction_date := transactionDate, entry_type := .INCOME,
          added_by := .TRANSFER, status := "COMPLETED", attachments := [] },
        { from_account_id := fromId, to_account_id := toId, category_id := category_id,
          amount := amount, description := some "System created transfer",
          transaction_date := transactionDate, entry_type := .EXPENSES,
          added_by := .TRANSFER, status := "COMPLETED", attachments := [] }]
    else some [mainTx]

/-- C6 (amended): a CONTRA transfer from F to T with positive amount A
creates exactly three rows: the CONTRA row itself (MANUAL, from F to T with
the user description and attachments), one synthetic INCOME-tagged row with
from_account_id = T and to_account_id = F — crediting the SOURCE, not the
destination — and one synthetic EXPENSES-tagged row with from_account_id = F
and to_account_id = T, both synthetic rows with amount A, provenance
TRANSFER and the fixed description System created transfer. -/
theorem C6_transfer_rows (f t : String) (cid : Option String) (a : Rat) (d : Option String)
    (date : String) (att : List String)
    (hf : f ≠ "") (ht : t ≠ "") (hft : f ≠ t) (ha : 0 < a) (hdate : date ≠ "") :
    handleSubmit .CONTRA (some f) (some t) cid a d date att =
      some [
        { from_account_id := some f, to_account_id := some t, category_id := cid,
          amount := a, description := d, transaction_date := date,
          entry_type := .CONTRA, added_by := .MANUAL, status := "COMPLETED",
          attachments := att },
        { from_account_id := some t, to_account_id := some f, category_id := cid,
          amount := a, description := some "System created transfer",
          transaction_date := date, entry_type := .INCOME, added_by := .TRANSFER,
          status := "COMPLETED", attachments := [] },
        { from_account_id := some f, to_account_id := some t, category_id := cid,
          amount := a, description := some "System created transfer",
          transaction_date := date, entry_type := .EXPENSES, added_by := .TRANSFER,
          status := "COMPLETED", attachments := [] }] := by
  have hc : canSubmit .CONTRA (some f) (some t) a date = true := by
    simp [canSubmit, optTruthy, hf, ht, hdate, ha, hft]
  unfold handleSubmit
  rw [hc]
  simp only [Bool.not_true, Bool.false_eq_true, if_false]
  rw [if_neg (not_le.mpr ha)]
  simp

/-- C6 witness: the amended transfer expansion on concrete arguments. -/
theorem C6_transfer_rows_witness :
    handleSubmit .CONTRA (some "F") (some "T") none 25 none "2024-01-01" [] =
      some [
        { from_account_id := some "F", to_account_id := some "T", category_id := none,
          amount := 25, description := none, transaction_date := "2024-01-01",
          entry_type := .CONTRA, added_by := .MANUAL, status := "COMPLETED",
          attachments := [] },
        { from_account_id := some "T", to_account_id := some "F", category_id := none,
          amount := 25, description := some "System created transfer",
          transaction_date := "2024-01-01", entry_type := .INCOME, added_by := .TRANSFER,
          status := "COMPLETED", attachments := [] },
        { from_account_id := some "F", to_account_id := some "T", category_id := none,
          amount := 25, description := some "System created transfer",
          transaction_date := "2024-01-01", entry_type := .EXPENSES, added_by := .TRANSFER,
          status := "COMPLETED", attachments := [] }] :=
  C6_transfer_rows "F" "T" none 25 none "2024-01-01" []
    (by decide) (by decide) (by decide) (by norm_num) (by decide)

/-- C6 counterexample: on a concrete CONTRA submission from F to T, three
rows are created but no INCOME-tagged row credits the destination T — the
synthetic INCOME leg carries to_account_id = F, the source. -/
theorem C6_counterexample :
    ((handleSubmit .CONTRA (some "F") (some "T") none 25 none "2024-01-01" []).getD
        []).length = 3 ∧
    ((handleSubmit .CONTRA (some "F") (some "T") none 25 none "2024-01-01" []).getD
        []).filter
      (fun tx => decide (tx.entry_type = EntryType.INCOME) &&
        (tx.to_account_id == some "T")) = [] ∧
    ((handleSubmit .CONTRA (some "F") (some "T") none 25 none "2024-01-01" []).getD
        []).map (fun tx => (tx.entry_type, tx.from_account_id, tx.to_account_id)) =
      [(EntryType.CONTRA, some "F", some "T"),
       (EntryType.INCOME, some "T", some "F"),
       (EntryType.EXPENSES, some "F", some "T")] := by
  have h : handleSubmit .CONTRA (some "F") (some "T") none 25 none "2024-01-01" [] =
      some [
        { from_account_id := some "F", to_account_id := some "T", category_id := none,
          amount := 25, description := none, transaction_date := "2024-01-01",
          entry_type := .CONTRA, added_by := .MANUAL, status := "COMPLETED",
          attachments := [] },
        { from_account_id := some "T", to_account_id := some "F", category_id := none,
          amount := 25, description := some "System created transfer",
          transaction_date := "2024-01-01", entry_type := .INCOME, added_by := .TRANSFER,
          status := "COMPLETED", attachments := [] },
        { from_account_id := some "F", to_account_id := some "T", category_id := none,
          amount := 25, description := some "System created transfer",
          transaction_date := "2024-01-01", entry_type := .EXPENSES, added_by := .TRANSFER,
          status := "COMPLETED", attachments := [] }] := by
    have hc : canSubmit .CONTRA (some "F") (some "T") 25 "2024-01-01" = true := by
      simp [canSubmit, optTruthy]
    unfold handleSubmit
    rw [hc]
    simp only [Bool.not_true, Bool.false_eq_true, if_false]
    rw [if_neg (by norm_num : ¬ (25 : Rat) ≤ 0)]
    simp
  rw [h]
  refine ⟨rfl, ?_, rfl⟩
  simp [List.filter]

end PFK
